import Mathlib

/-!
Verification of the `.obj` raw parser (`src/raw/object.rs`): a shallow embedding
of the statement interpreter, the range-tracking group builders (`GroupBuilder`,
`Group`, `Range`) and the top-level `parse_obj` driver, together with theorems
about the frozen behavioural claims.

Conventions of the embedding:
* Rust `usize` is modelled as `Nat`; the `UNDEFINED` sentinel (`usize::MAX`) is
  the literal `2 ^ 64 - 1`.
* Fallible code returns `ParseOutcome`, which distinguishes a typed error
  (`error!`, the `ObjError` taxonomy) from a runtime panic (`unimplemented!`,
  arithmetic underflow of `usize` subtraction, failed asserts/indexing).
* `HashMap<String, Group>` and `VecMap<Group>` are modelled as association
  lists with insert / update-in-place / remove / lookup operations.
* The lexer is out of scope (the interpreter consumes a list of already
  tokenized statements), and scalar numeric parsing is an external collaborator
  per the design: concrete executable stand-ins are provided for it.
-/

namespace ObjRaw

/-- The `usize::MAX` sentinel marking the `end` of a still-open range. -/
def UNDEFINED : Nat := 2 ^ 64 - 1

/-- A half-open `[start, end)` index range (struct `Range`). -/
structure Range where
  start : Nat
  «end» : Nat
deriving DecidableEq, Repr

/-- A group: one sequence of ranges per element kind (struct `Group`). -/
structure Group where
  points : List Range
  lines : List Range
  polygons : List Range
deriving DecidableEq, Repr

/-- A snapshot of `(points.len(), lines.len(), polygons.len())` (`Counter::get`). -/
abbrev Counts := Nat × Nat × Nat

/-- `Group::start`: append a fresh open range to every element kind. -/
def Group.start (g : Group) (count : Counts) : Group :=
  { points := g.points ++ [⟨count.1, UNDEFINED⟩]
    lines := g.lines ++ [⟨count.2.1, UNDEFINED⟩]
    polygons := g.polygons ++ [⟨count.2.2, UNDEFINED⟩] }

/-- `Group::new`: a fresh group, already opened at `count`. -/
def Group.new (count : Counts) : Group :=
  Group.start { points := [], lines := [], polygons := [] } count

/-- The inner `fn end(vec, end)` of `Group::end`. `none` models the panics of
`vec.len() - 1` underflow / `vec[last]` on an empty vector and of the
`assert_eq!(vec[last].end, UNDEFINED)`. Otherwise: set the open range's end to
`e`, or pop it entirely when it would be zero-length. -/
def endVec (vec : List Range) (e : Nat) : Option (List Range) :=
  match vec.getLast? with
  | none => none
  | some last =>
    if last.«end» = UNDEFINED then
      if last.start ≠ e then some (vec.dropLast ++ [{ start := last.start, «end» := e }])
      else some vec.dropLast
    else none

/-- `Group::end`: close every element kind at `count`; the returned `Bool` is
`true` iff the group is left with zero ranges across all three kinds. -/
def Group.«end» (g : Group) (count : Counts) : Option (Group × Bool) :=
  match endVec g.points count.1, endVec g.lines count.2.1, endVec g.polygons count.2.2 with
  | some ps, some ls, some fs =>
    some ({ points := ps, lines := ls, polygons := fs }, ps.isEmpty && ls.isEmpty && fs.isEmpty)
  | _, _, _ => none

/-- Association-list lookup, modelling `Map::get_mut` / indexing. -/
def mapLookup [DecidableEq K] : List (K × V) → K → Option V
  | [], _ => none
  | (k', v) :: rest, k => if k' = k then some v else mapLookup rest k

/-- In-place update of the entry at key `k` (mutation through `get_mut` / `Index`). -/
def mapUpdate [DecidableEq K] : List (K × V) → K → V → List (K × V)
  | [], _, _ => []
  | (k', w) :: rest, k, v =>
    (if k' = k then (k, v) else (k', w)) :: mapUpdate rest k v

/-- `Map::remove`. -/
def mapRemove [DecidableEq K] : List (K × V) → K → List (K × V)
  | [], _ => []
  | (k', w) :: rest, k =>
    if k' = k then mapRemove rest k else (k', w) :: mapRemove rest k

/-- `Map::insert` (replaces an existing binding, appends a new one otherwise). -/
def mapInsert [DecidableEq K] (m : List (K × V)) (k : K) (v : V) : List (K × V) :=
  match mapLookup m k with
  | some _ => mapUpdate m k v
  | none => m ++ [(k, v)]

/-- `struct GroupBuilder`: the table under construction plus the currently
active key, if any. -/
structure GroupBuilder (K : Type) where
  current : Option K
  result : List (K × Group)
deriving DecidableEq, Repr

/-- The tail of `GroupBuilder::start` (the inner closure): reopen the existing
group under `input` via `Group::start`, or insert a brand-new `Group::new`. -/
def builderOpen [DecidableEq K] (result : List (K × Group)) (count : Counts) (input : K) :
    GroupBuilder K :=
  match mapLookup result input with
  | some g => { current := some input, result := mapUpdate result input (g.start count) }
  | none => { current := some input, result := mapInsert result input (Group.new count) }

/-- `GroupBuilder::start`. `none` models the panic of `self.result[*current]`
on a missing key or of the asserts inside `Group::end`. -/
def GroupBuilder.start [DecidableEq K] (b : GroupBuilder K) (count : Counts) (input : K) :
    Option (GroupBuilder K) :=
  match b.current with
  | some current =>
    if current = input then some b
    else
      match mapLookup b.result current with
      | none => none
      | some g =>
        match g.«end» count with
        | none => none
        | some (g', isEmpty) =>
          let closed :=
            if isEmpty then mapRemove (mapUpdate b.result current g') current
            else mapUpdate b.result current g'
          some (builderOpen closed count input)
  | none => some (builderOpen b.result count input)

/-- `GroupBuilder::end`. -/
def GroupBuilder.«end» [DecidableEq K] (b : GroupBuilder K) (count : Counts) :
    Option (GroupBuilder K) :=
  match b.current with
  | none => some b
  | some current =>
    match mapLookup b.result current with
    | none => none
    | some g =>
      match g.«end» count with
      | none => none
      | some (g', isEmpty) =>
        let closed :=
          if isEmpty then mapRemove (mapUpdate b.result current g') current
          else mapUpdate b.result current g'
        some { current := none, result := closed }

/-- `Counter::hash_map`: a string-keyed builder with `input` pre-inserted as the
active group, opened at `(0, 0, 0)`. -/
def hashMapBuilder (input : String) : GroupBuilder String :=
  { current := some input, result := [(input, Group.new (0, 0, 0))] }

/-- `Counter::vec_map`: a numeric-keyed builder with nothing active. -/
def vecMapBuilder : GroupBuilder Nat :=
  { current := none, result := [] }

/-- The error taxonomy of `error!` (messages elided; the kind is what the
claims are about). `ParseFailure` is the error a failing `str::parse` is
converted into by `try!`. -/
inductive ObjError where
  | WrongNumberOfArguments
  | WrongTypeOfArguments
  | UnexpectedStatement
  | ParseFailure
deriving DecidableEq, Repr

/-- The runtime panics the parser can hit: `unimplemented!()`, `usize`
subtraction underflow, and failed asserts / out-of-bounds indexing. -/
inductive PanicKind where
  | unimplemented
  | underflow
  | assertFailed
deriving DecidableEq, Repr

/-- Outcome of running fallible parser code: success, a typed error result, or
a process-aborting panic. -/
inductive ParseOutcome (α : Type) where
  | ok : α → ParseOutcome α
  | err : ObjError → ParseOutcome α
  | panic : PanicKind → ParseOutcome α
deriving DecidableEq, Repr

def ParseOutcome.bind : ParseOutcome α → (α → ParseOutcome β) → ParseOutcome β
  | .ok a, f => f a
  | .err e, _ => .err e
  | .panic k, _ => .panic k

/-- Split a character list at every occurrence of `sep` (the semantics of
Rust `str::split`), accumulating the current field in reverse. -/
def splitOnChar (sep : Char) : List Char → List Char → List (List Char)
  | [], acc => [acc.reverse]
  | c :: cs, acc =>
    if c = sep then acc.reverse :: splitOnChar sep cs []
    else splitOnChar sep cs (c :: acc)

/-- The `s!` macro: split an argument into its `/`-separated fields. -/
def splitSlash (s : String) : List (List Char) :=
  splitOnChar '/' s.data []

def parseNatAux : List Char → Nat → Option Nat
  | [], acc => some acc
  | c :: cs, acc =>
    if c.isDigit then parseNatAux cs (acc * 10 + (c.toNat - 48)) else none

/-- Modelled from the spec: numeric parsing of scalar arguments is an
out-of-scope external collaborator (`str::parse::<usize>` from the standard
library), assumed to fail with a well-defined parse error on malformed input.
Stand-in: a plain unsigned decimal parser, failing on empty, signed, or
non-digit input (the unbounded `Nat` result elides `usize` overflow). -/
def parseNatList (cs : List Char) : Option Nat :=
  match cs with
  | [] => none
  | _ => parseNatAux cs 0

def parseDecimalAux (cs : List Char) : Option Rat :=
  match splitOnChar '.' cs [] with
  | [w] => (parseNatList w).map (fun n => (n : Rat))
  | [w, f] =>
    match parseNatList w, parseNatList f with
    | some n, some m => some ((n : Rat) + (m : Rat) / ((10 : Rat) ^ f.length))
    | _, _ => none
  | _ => none

/-- Modelled from the spec: scalar float parsing (`str::parse::<f32>`) is an
out-of-scope external collaborator, assumed to fail with a well-defined parse
error. Stand-in: signed decimal numerals read as exact rationals. -/
def parseF32 (s : String) : Option Rat :=
  match s.data with
  | '-' :: cs => (parseDecimalAux cs).map Neg.neg
  | cs => parseDecimalAux cs

/-- The `f!` macro: parse every argument as a scalar, aborting on the first
parse failure. -/
def parseFloats : List String → Option (List Rat)
  | [] => some []
  | a :: rest =>
    match parseF32 a, parseFloats rest with
    | some x, some xs => some (x :: xs)
    | _, _ => none

/-- A uniform 4-component vertex-attribute record (`f32x4`). -/
structure Vec4 where
  x : Rat
  y : Rat
  z : Rat
  w : Rat
deriving DecidableEq, Repr

/-- The `Line` type (never constructed by the current parser). -/
inductive Line where
  | P : Nat → Nat → Line
  | PT : Nat × Nat → Nat × Nat → Line
deriving DecidableEq, Repr

/-- The `Polygon` type: one of four uniform vertex-reference shapes. -/
inductive Polygon where
  | P : List Nat → Polygon
  | PT : List (Nat × Nat) → Polygon
  | PN : List (Nat × Nat) → Polygon
  | PTN : List (Nat × Nat × Nat) → Polygon
deriving DecidableEq, Repr

/-- `n!(field) - 1`: parse a 1-based `usize` index and subtract one. A failing
parse surfaces as a typed parse error via `try!`; an index of `0` makes the
`usize` decrement underflow (a panic under debug assertions, wraparound
garbage otherwise — never a typed error). -/
def nIndex (cs : List Char) : ParseOutcome Nat :=
  match parseNatList cs with
  | none => .err .ParseFailure
  | some n => if n = 0 then .panic .underflow else .ok (n - 1)

/-- Parse a subsequent vertex reference against the `[p]` pattern; any other
field shape hits `unimplemented!()`. -/
def refP (fields : List (List Char)) : ParseOutcome Nat :=
  match fields with
  | [p] => nIndex p
  | _ => .panic .unimplemented

/-- Parse a subsequent vertex reference against the `[p, t]` pattern. -/
def refPT (fields : List (List Char)) : ParseOutcome (Nat × Nat) :=
  match fields with
  | [p, t] => (nIndex p).bind fun a => (nIndex t).bind fun b => .ok (a, b)
  | _ => .panic .unimplemented

/-- Parse a subsequent vertex reference against the `[p, "", u]` pattern. -/
def refPN (fields : List (List Char)) : ParseOutcome (Nat × Nat) :=
  match fields with
  | [p, [], u] => (nIndex p).bind fun a => (nIndex u).bind fun b => .ok (a, b)
  | _ => .panic .unimplemented

/-- Parse a subsequent vertex reference against the `[p, t, u]` pattern. -/
def refPTN (fields : List (List Char)) : ParseOutcome (Nat × Nat × Nat) :=
  match fields with
  | [p, t, u] =>
    (nIndex p).bind fun a => (nIndex t).bind fun b => (nIndex u).bind fun c => .ok (a, b, c)
  | _ => .panic .unimplemented

/-- The loop inside the `m!` macro: push every remaining vertex reference,
re-matching each against the first vertex's pattern via `refFn`. -/
def pushVerts {α : Type} (refFn : List (List Char) → ParseOutcome α) :
    List α → List String → ParseOutcome (List α)
  | acc, [] => .ok acc
  | acc, param :: ps =>
    match refFn (splitSlash param) with
    | .ok v => pushVerts refFn (acc ++ [v]) ps
    | .err e => .err e
    | .panic k => .panic k

/-- The `m!` macro body of the `"f"` arm: the first argument's `/`-field
pattern selects the polygon shape, the first vertex is parsed by that arm's
expression, and the remaining arguments are re-matched against the same
pattern (`unimplemented!()` on mismatch, inside the `ref` functions). -/
def parseFaceBody (first : String) (rest : List String) : ParseOutcome Polygon :=
  match splitSlash first with
  | [p] =>
    (nIndex p).bind fun i =>
      (pushVerts refP [i] rest).bind fun l => .ok (Polygon.P l)
  | [p, t] =>
    (nIndex p).bind fun a => (nIndex t).bind fun b =>
      (pushVerts refPT [(a, b)] rest).bind fun l => .ok (Polygon.PT l)
  | [p, [], u] =>
    (nIndex p).bind fun a => (nIndex u).bind fun b =>
      (pushVerts refPN [(a, b)] rest).bind fun l => .ok (Polygon.PN l)
  | [p, t, u] =>
    (nIndex p).bind fun a => (nIndex t).bind fun b => (nIndex u).bind fun c =>
      (pushVerts refPTN [(a, b, c)] rest).bind fun l => .ok (Polygon.PTN l)
  | _ => .err .WrongTypeOfArguments

/-- The `"f"` statement arm: at least 3 arguments, then the shape-directed
vertex parsing of `parseFaceBody`. -/
def parseFace (args : List String) : ParseOutcome Polygon :=
  if args.length < 3 then .err .WrongNumberOfArguments
  else
    match args with
    | [] => .err .WrongNumberOfArguments
    | first :: rest => parseFaceBody first rest

/-- The mutable state threaded through `parse_obj`'s statement callback. -/
structure PState where
  name : Option String
  material_libraries : List String
  positions : List Vec4
  tex_coords : List Vec4
  normals : List Vec4
  param_vertices : List Vec4
  points : List Nat
  lines : List Line
  polygons : List Polygon
  group_builder : GroupBuilder String
  mesh_builder : GroupBuilder String
  smoothing_builder : GroupBuilder Nat
  merging_builder : GroupBuilder Nat
deriving DecidableEq, Repr

/-- `Counter::get` applied to the interpreter state. -/
def counts (st : PState) : Counts :=
  (st.points.length, st.lines.length, st.polygons.length)

def withGroupB (st : PState) : Option (GroupBuilder String) → ParseOutcome PState
  | some b => .ok { st with group_builder := b }
  | none => .panic .assertFailed

def withMeshB (st : PState) : Option (GroupBuilder String) → ParseOutcome PState
  | some b => .ok { st with mesh_builder := b }
  | none => .panic .assertFailed

def withSmoothB (st : PState) : Option (GroupBuilder Nat) → ParseOutcome PState
  | some b => .ok { st with smoothing_builder := b }
  | none => .panic .assertFailed

def withMergeB (st : PState) : Option (GroupBuilder Nat) → ParseOutcome PState
  | some b => .ok { st with merging_builder := b }
  | none => .panic .assertFailed

/-- The statement interpreter: the body of the callback `parse_obj` hands to
the lexer, one Rust `match` arm per keyword. -/
def step (st : PState) (stmt : String) (args : List String) : ParseOutcome PState :=
  match stmt with
  | "v" =>
    match parseFloats args with
    | none => .err .ParseFailure
    | some [x, y, z, w] => .ok { st with positions := st.positions ++ [⟨x, y, z, w⟩] }
    | some [x, y, z] => .ok { st with positions := st.positions ++ [⟨x, y, z, 1⟩] }
    | some _ => .err .WrongNumberOfArguments
  | "vt" =>
    match parseFloats args with
    | none => .err .ParseFailure
    | some [u, v, w] => .ok { st with tex_coords := st.tex_coords ++ [⟨u, v, w, 0⟩] }
    | some [u, v] => .ok { st with tex_coords := st.tex_coords ++ [⟨u, v, 0, 0⟩] }
    | some [u] => .ok { st with tex_coords := st.tex_coords ++ [⟨u, 0, 0, 0⟩] }
    | some _ => .err .WrongNumberOfArguments
  | "vn" =>
    match parseFloats args with
    | none => .err .ParseFailure
    | some [x, y, z] => .ok { st with normals := st.normals ++ [⟨x, y, z, 0⟩] }
    | some _ => .err .WrongNumberOfArguments
  | "vp" =>
    match parseFloats args with
    | none => .err .ParseFailure
    | some [u, v, w] => .ok { st with param_vertices := st.param_vertices ++ [⟨u, v, w, 0⟩] }
    | some [u, v] => .ok { st with param_vertices := st.param_vertices ++ [⟨u, v, 1, 0⟩] }
    | some [u] => .ok { st with param_vertices := st.param_vertices ++ [⟨u, 0, 1, 0⟩] }
    | some _ => .err .WrongNumberOfArguments
  | "cstype" =>
    match args with
    | ["rat", ty] | [ty] =>
      match ty with
      | "bmatrix" | "bezier" | "bspline" | "cardinal" | "taylor" => .panic .unimplemented
      | _ => .err .WrongTypeOfArguments
    | _ => .err .WrongTypeOfArguments
  | "deg" =>
    match parseFloats args with
    | none => .err .ParseFailure
    | some [_, _] => .panic .unimplemented
    | some [_] => .panic .unimplemented
    | some _ => .err .WrongNumberOfArguments
  | "bmat" => .panic .unimplemented
  | "step" => .panic .unimplemented
  | "p" => .panic .unimplemented
  | "l" => .panic .unimplemented
  | "f" =>
    match parseFace args with
    | .ok poly => .ok { st with polygons := st.polygons ++ [poly] }
    | .err e => .err e
    | .panic k => .panic k
  | "curv" => .panic .unimplemented
  | "curv2" => .panic .unimplemented
  | "surf" => .panic .unimplemented
  | "parm" => .panic .unimplemented
  | "trim" => .panic .unimplemented
  | "hole" => .panic .unimplemented
  | "scrv" => .panic .unimplemented
  | "sp" => .panic .unimplemented
  | "end" => .panic .unimplemented
  | "con" => .panic .unimplemented
  | "g" =>
    match args with
    | [gname] => withGroupB st (GroupBuilder.start st.group_builder (counts st) gname)
    | _ => .err .WrongNumberOfArguments
  | "s" =>
    match args with
    | ["off"] | ["0"] => withSmoothB st (GroupBuilder.«end» st.smoothing_builder (counts st))
    | [param] =>
      match parseNatList param.data with
      | some n => withSmoothB st (GroupBuilder.start st.smoothing_builder (counts st) n)
      | none => .err .ParseFailure
    | _ => .err .WrongNumberOfArguments
  | "mg" =>
    match args with
    | ["off"] | ["0"] => withMergeB st (GroupBuilder.«end» st.merging_builder (counts st))
    | [param] =>
      match parseNatList param.data with
      | some n => withMergeB st (GroupBuilder.start st.merging_builder (counts st) n)
      | none => .err .ParseFailure
    | _ => .err .WrongNumberOfArguments
  | "o" =>
    match args with
    | [] => .ok { st with name := none }
    | l => .ok { st with name := some (String.intercalate " " l) }
  | "bevel" => .panic .unimplemented
  | "c_interp" => .panic .unimplemented
  | "d_interp" => .panic .unimplemented
  | "lod" => .panic .unimplemented
  | "usemtl" =>
    match args with
    | [material] => withMeshB st (GroupBuilder.start st.mesh_builder (counts st) material)
    | _ => .err .WrongNumberOfArguments
  | "mtllib" => .ok { st with material_libraries := st.material_libraries ++ args }
  | "shadow_obj" => .panic .unimplemented
  | "trace_obj" => .panic .unimplemented
  | "ctech" => .panic .unimplemented
  | "stech" => .panic .unimplemented
  | _ => .err .UnexpectedStatement

/-- One tokenized statement: keyword plus argument tokens. -/
abbrev Stmt := String × List String

/-- The initial interpreter state of `parse_obj`: empty accumulators, the
`"default"` group and `""` mesh pre-opened, nothing active numerically. -/
def initState : PState :=
  { name := none
    material_libraries := []
    positions := []
    tex_coords := []
    normals := []
    param_vertices := []
    points := []
    lines := []
    polygons := []
    group_builder := hashMapBuilder "default"
    mesh_builder := hashMapBuilder ""
    smoothing_builder := vecMapBuilder
    merging_builder := vecMapBuilder }

/-- Run the interpreter over the statement stream, aborting at the first error
or panic. -/
def runStmts (st : PState) : List Stmt → ParseOutcome PState
  | [] => .ok st
  | (kw, args) :: rest =>
    match step st kw args with
    | .ok st' => runStmts st' rest
    | .err e => .err e
    | .panic k => .panic k

/-- The unconditional end-of-stream flush: `end()` on all four builders. -/
def flushState (st : PState) : Option PState := do
  let gb ← GroupBuilder.«end» st.group_builder (counts st)
  let mb ← GroupBuilder.«end» st.mesh_builder (counts st)
  let sb ← GroupBuilder.«end» st.smoothing_builder (counts st)
  let rb ← GroupBuilder.«end» st.merging_builder (counts st)
  some { st with
    group_builder := gb
    mesh_builder := mb
    smoothing_builder := sb
    merging_builder := rb }

/-- The aggregate result (`struct RawObj`). -/
structure RawObj where
  name : Option String
  material_libraries : List String
  positions : List Vec4
  tex_coords : List Vec4
  normals : List Vec4
  param_vertices : List Vec4
  points : List Nat
  lines : List Line
  polygons : List Polygon
  groups : List (String × Group)
  meshes : List (String × Group)
  smoothing_groups : List (Nat × Group)
  merging_groups : List (Nat × Group)
deriving DecidableEq, Repr

/-- Assemble the final `RawObj` from the flushed interpreter state. -/
def mkRawObj (st : PState) : RawObj :=
  { name := st.name
    material_libraries := st.material_libraries
    positions := st.positions
    tex_coords := st.tex_coords
    normals := st.normals
    param_vertices := st.param_vertices
    points := st.points
    lines := st.lines
    polygons := st.polygons
    groups := st.group_builder.result
    meshes := st.mesh_builder.result
    smoothing_groups := st.smoothing_builder.result
    merging_groups := st.merging_builder.result }

/-- `parse_obj`: interpret every statement, flush all four builders, and
assemble the result. -/
def parse_obj (stmts : List Stmt) : ParseOutcome RawObj :=
  match runStmts initState stmts with
  | .err e => .err e
  | .panic k => .panic k
  | .ok st =>
    match flushState st with
    | none => .panic .assertFailed
    | some st' => .ok (mkRawObj st')

/-- The four uniform vertex-reference shapes of a face. -/
inductive FaceShape where
  | sP
  | sPT
  | sPN
  | sPTN
deriving DecidableEq, Repr

/-- The reference shape of one face argument, determined by its `/`-separated
fields and whether the middle field is empty; `none` when no shape matches. -/
def refShape (s : String) : Option FaceShape :=
  match splitSlash s with
  | [_] => some .sP
  | [_, _] => some .sPT
  | [_, [], _] => some .sPN
  | [_, _, _] => some .sPTN
  | _ => none

/-- The outcomes face-vertex parsing can produce: a parsed value, an
`unimplemented!` panic (pattern mismatch on a later vertex), a `usize`
underflow panic (index field `0`), or a typed numeric-parse error. -/
def FaceClassified {α : Type} (o : ParseOutcome α) : Prop :=
  (∃ a, o = .ok a) ∨ o = .panic .unimplemented ∨ o = .panic .underflow ∨
    o = .err .ParseFailure

/-- A closed, ordered chain of ranges: every range starts no earlier than
`lo`, is strictly nonempty, and ends by `n`; consecutive ranges do not
overlap. -/
def ChainClosed : List Range → Nat → Nat → Prop
  | [], _, _ => True
  | r :: rs, lo, n => lo ≤ r.start ∧ r.start < r.«end» ∧ r.«end» ≤ n ∧ ChainClosed rs r.«end» n

/-- The well-formedness of one element kind's range sequence in a final
parse result: every range is nonempty with a defined end, and the sequence is
in nondecreasing start order without overlaps. -/
def RangesOk (l : List Range) : Prop :=
  (∀ r ∈ l, r.start < r.«end» ∧ r.«end» ≠ UNDEFINED) ∧
  l.Chain' (fun a b => a.start ≤ b.start ∧ a.«end» ≤ b.start)

/-- The well-formedness of a final group across all three element kinds. -/
def GroupOk (g : Group) : Prop :=
  RangesOk g.points ∧ RangesOk g.lines ∧ RangesOk g.polygons

/-- One element kind of a group that is not currently open: a closed chain
bounded by the current count. -/
def InactiveKind (l : List Range) (n : Nat) : Prop :=
  ChainClosed l 0 n

/-- One element kind of the currently open group: a closed chain followed by
exactly one open range whose start is at most the current count. -/
def ActiveKind (l : List Range) (n : Nat) : Prop :=
  ∃ pre s, l = pre ++ [⟨s, UNDEFINED⟩] ∧ ChainClosed pre 0 s ∧ s ≤ n

/-- A fully closed group at counts `c`. -/
def GroupClosed (g : Group) (c : Counts) : Prop :=
  InactiveKind g.points c.1 ∧ InactiveKind g.lines c.2.1 ∧ InactiveKind g.polygons c.2.2

/-- A group with one open range per element kind at counts `c`. -/
def GroupOpen (g : Group) (c : Counts) : Prop :=
  ActiveKind g.points c.1 ∧ ActiveKind g.lines c.2.1 ∧ ActiveKind g.polygons c.2.2

/-- The invariant of one group table builder at counts `c`: keys are unique,
the active key (if any) is present, the active group is open, and every other
group is fully closed. -/
def BuilderInv [DecidableEq K] (b : GroupBuilder K) (c : Counts) : Prop :=
  (b.result.map Prod.fst).Nodup ∧
  (∀ k, b.current = some k → (mapLookup b.result k).isSome) ∧
  (∀ k g, mapLookup b.result k = some g →
    (b.current = some k → GroupOpen g c) ∧ (b.current ≠ some k → GroupClosed g c))

/-- The interpreter-state invariant: the point and line accumulators are
never written, and all four builders satisfy their table invariant at the
current counts. -/
def StateInv (st : PState) : Prop :=
  st.points = [] ∧ st.lines = [] ∧
  BuilderInv st.group_builder (counts st) ∧
  BuilderInv st.mesh_builder (counts st) ∧
  BuilderInv st.smoothing_builder (counts st) ∧
  BuilderInv st.merging_builder (counts st)

/-! ### Association-list lemmas -/

theorem mapLookup_cons_pos [DecidableEq K] {k' k : K} (h : k' = k) (w : V)
    (rest : List (K × V)) : mapLookup ((k', w) :: rest) k = some w := by
  simp [mapLookup, h]

theorem mapLookup_cons_neg [DecidableEq K] {k' k : K} (h : ¬ (k' = k)) (w : V)
    (rest : List (K × V)) : mapLookup ((k', w) :: rest) k = mapLookup rest k := by
  simp [mapLookup, h]

theorem mapUpdate_cons_pos [DecidableEq K] {k' k : K} (h : k' = k) (w v : V)
    (rest : List (K × V)) :
    mapUpdate ((k', w) :: rest) k v = (k, v) :: mapUpdate rest k v := by
  simp [mapUpdate, h]

theorem mapUpdate_cons_neg [DecidableEq K] {k' k : K} (h : ¬ (k' = k)) (w v : V)
    (rest : List (K × V)) :
    mapUpdate ((k', w) :: rest) k v = (k', w) :: mapUpdate rest k v := by
  simp [mapUpdate, h]

theorem mapRemove_cons_pos [DecidableEq K] {k' k : K} (h : k' = k) (w : V)
    (rest : List (K × V)) : mapRemove ((k', w) :: rest) k = mapRemove rest k := by
  simp [mapRemove, h]

theorem mapRemove_cons_neg [DecidableEq K] {k' k : K} (h : ¬ (k' = k)) (w : V)
    (rest : List (K × V)) :
    mapRemove ((k', w) :: rest) k = (k', w) :: mapRemove rest k := by
  simp [mapRemove, h]

theorem mapLookup_update_self [DecidableEq K] (m : List (K × V)) (k : K) (v : V) :
    mapLookup (mapUpdate m k v) k = (mapLookup m k).map (fun _ => v) := by
  induction m with
  | nil => rfl
  | cons p rest ih =>
    rcases p with ⟨k', w⟩
    by_cases h : k' = k
    · rw [mapUpdate_cons_pos h, mapLookup_cons_pos rfl, mapLookup_cons_pos h]
      rfl
    · rw [mapUpdate_cons_neg h, mapLookup_cons_neg h, mapLookup_cons_neg h, ih]

theorem mapLookup_update_ne [DecidableEq K] (m : List (K × V)) {k j : K} (v : V)
    (h : j ≠ k) : mapLookup (mapUpdate m k v) j = mapLookup m j := by
  induction m with
  | nil => rfl
  | cons p rest ih =>
    rcases p with ⟨k', w⟩
    by_cases hk : k' = k
    · subst hk
      rw [mapUpdate_cons_pos rfl, mapLookup_cons_neg (Ne.symm h),
        mapLookup_cons_neg (Ne.symm h), ih]
    · rw [mapUpdate_cons_neg hk]
      by_cases hj : k' = j
      · rw [mapLookup_cons_pos hj, mapLookup_cons_pos hj]
      · rw [mapLookup_cons_neg hj, mapLookup_cons_neg hj, ih]

theorem mapLookup_remove_self [DecidableEq K] (m : List (K × V)) (k : K) :
    mapLookup (mapRemove m k) k = none := by
  induction m with
  | nil => rfl
  | cons p rest ih =>
    rcases p with ⟨k', w⟩
    by_cases hk : k' = k
    · rw [mapRemove_cons_pos hk, ih]
    · rw [mapRemove_cons_neg hk, mapLookup_cons_neg hk, ih]

theorem mapLookup_remove_ne [DecidableEq K] (m : List (K × V)) {k j : K}
    (h : j ≠ k) : mapLookup (mapRemove m k) j = mapLookup m j := by
  induction m with
  | nil => rfl
  | cons p rest ih =>
    rcases p with ⟨k', w⟩
    by_cases hk : k' = k
    · subst hk
      rw [mapRemove_cons_pos rfl, mapLookup_cons_neg (Ne.symm h), ih]
    · rw [mapRemove_cons_neg hk]
      by_cases hj : k' = j
      · rw [mapLookup_cons_pos hj, mapLookup_cons_pos hj]
      · rw [mapLookup_cons_neg hj, mapLookup_cons_neg hj, ih]

theorem mapLookup_append_some [DecidableEq K] {m : List (K × V)} {j : K} {v : V}
    (h : mapLookup m j = some v) (m' : List (K × V)) :
    mapLookup (m ++ m') j = some v := by
  induction m with
  | nil => cases h
  | cons p rest ih =>
    rcases p with ⟨k', w⟩
    by_cases hk : k' = j
    · rw [mapLookup_cons_pos hk] at h
      rw [List.cons_append, mapLookup_cons_pos hk]
      exact h
    · rw [mapLookup_cons_neg hk] at h
      rw [List.cons_append, mapLookup_cons_neg hk]
      exact ih h

theorem mapLookup_append_none [DecidableEq K] {m : List (K × V)} {j : K}
    (h : mapLookup m j = none) (m' : List (K × V)) :
    mapLookup (m ++ m') j = mapLookup m' j := by
  induction m with
  | nil => rfl
  | cons p rest ih =>
    rcases p with ⟨k', w⟩
    by_cases hk : k' = j
    · rw [mapLookup_cons_pos hk] at h
      cases h
    · rw [mapLookup_cons_neg hk] at h
      rw [List.cons_append, mapLookup_cons_neg hk]
      exact ih h

theorem keys_mapUpdate [DecidableEq K] (m : List (K × V)) (k : K) (v : V) :
    (mapUpdate m k v).map Prod.fst = m.map Prod.fst := by
  induction m with
  | nil => rfl
  | cons p rest ih =>
    rcases p with ⟨k', w⟩
    by_cases hk : k' = k
    · rw [mapUpdate_cons_pos hk]
      simp [ih, hk]
    · rw [mapUpdate_cons_neg hk]
      simp [ih]

theorem mapLookup_eq_none_iff [DecidableEq K] (m : List (K × V)) (k : K) :
    mapLookup m k = none ↔ k ∉ m.map Prod.fst := by
  induction m with
  | nil => simp [mapLookup]
  | cons p rest ih =>
    rcases p with ⟨k', w⟩
    by_cases hk : k' = k
    · rw [mapLookup_cons_pos hk]
      simp [hk]
    · rw [mapLookup_cons_neg hk]
      simp only [List.map_cons, List.mem_cons, ih]
      constructor
      · intro hn hor
        rcases hor with hor | hor
        · exact hk hor.symm
        · exact hn hor
      · intro hn
        intro hmem
        exact hn (Or.inr hmem)

theorem keys_mapRemove_sublist [DecidableEq K] (m : List (K × V)) (k : K) :
    ((mapRemove m k).map Prod.fst).Sublist (m.map Prod.fst) := by
  induction m with
  | nil => exact List.Sublist.refl _
  | cons p rest ih =>
    rcases p with ⟨k', w⟩
    by_cases hk : k' = k
    · rw [mapRemove_cons_pos hk]
      exact ih.cons _
    · rw [mapRemove_cons_neg hk]
      exact ih.cons₂ _

theorem lookup_of_mem_nodup [DecidableEq K] {m : List (K × V)} {k : K} {v : V}
    (hmem : (k, v) ∈ m) (hnd : (m.map Prod.fst).Nodup) : mapLookup m k = some v := by
  induction m with
  | nil => cases hmem
  | cons p rest ih =>
    rcases p with ⟨k', w⟩
    simp only [List.map_cons, List.nodup_cons] at hnd
    rcases List.mem_cons.mp hmem with heq | hmem'
    · cases heq
      exact mapLookup_cons_pos rfl _ _
    · have hk : ¬ (k' = k) := by
        intro hkk
        subst hkk
        exact hnd.1 (List.mem_map_of_mem Prod.fst hmem')
      rw [mapLookup_cons_neg hk]
      exact ih hmem' hnd.2

/-! ### `ParseOutcome` basics -/

@[simp] theorem ok_bind (a : α) (f : α → ParseOutcome β) :
    (ParseOutcome.ok a).bind f = f a := rfl

@[simp] theorem err_bind (e : ObjError) (f : α → ParseOutcome β) :
    (ParseOutcome.err e).bind f = .err e := rfl

@[simp] theorem panic_bind (k : PanicKind) (f : α → ParseOutcome β) :
    (ParseOutcome.panic k).bind f = .panic k := rfl

theorem bind_ok_inv {o : ParseOutcome α} {f : α → ParseOutcome β} {b : β}
    (h : o.bind f = .ok b) : ∃ a, o = .ok a ∧ f a = .ok b := by
  cases o with
  | ok a => exact ⟨a, rfl, h⟩
  | err e => simp at h
  | panic k => simp at h

theorem FaceClassified.bind {o : ParseOutcome α} {f : α → ParseOutcome β}
    (ho : FaceClassified o) (hf : ∀ a, FaceClassified (f a)) :
    FaceClassified (o.bind f) := by
  rcases ho with ⟨a, rfl⟩ | rfl | rfl | rfl
  · simpa using hf a
  all_goals simp [FaceClassified]

theorem classified_not_ok {o : ParseOutcome α} (hc : FaceClassified o)
    (hn : ∀ a, o ≠ .ok a) :
    o = .panic .unimplemented ∨ o = .panic .underflow ∨ o = .err .ParseFailure := by
  rcases hc with ⟨a, ha⟩ | h | h | h
  · exact absurd ha (hn a)
  all_goals simp [h]

/-! ### Face-parsing lemmas -/

theorem nIndex_nil : nIndex [] = .err .ParseFailure := rfl

theorem nIndex_classified (cs : List Char) : FaceClassified (nIndex cs) := by
  unfold nIndex
  split
  · simp [FaceClassified]
  · split
    · simp [FaceClassified]
    · exact Or.inl ⟨_, rfl⟩

theorem refP_classified (fields : List (List Char)) : FaceClassified (refP fields) := by
  unfold refP
  split
  · exact nIndex_classified _
  · simp [FaceClassified]

theorem refPT_classified (fields : List (List Char)) : FaceClassified (refPT fields) := by
  unfold refPT
  split
  · exact (nIndex_classified _).bind fun a =>
      (nIndex_classified _).bind fun b => Or.inl ⟨_, rfl⟩
  · simp [FaceClassified]

theorem refPN_classified (fields : List (List Char)) : FaceClassified (refPN fields) := by
  unfold refPN
  split
  · exact (nIndex_classified _).bind fun a =>
      (nIndex_classified _).bind fun b => Or.inl ⟨_, rfl⟩
  · simp [FaceClassified]

theorem refPTN_classified (fields : List (List Char)) : FaceClassified (refPTN fields) := by
  unfold refPTN
  split
  · exact (nIndex_classified _).bind fun a =>
      (nIndex_classified _).bind fun b =>
        (nIndex_classified _).bind fun c => Or.inl ⟨_, rfl⟩
  · simp [FaceClassified]

theorem pushVerts_classified {α : Type} (refFn : List (List Char) → ParseOutcome α)
    (hc : ∀ fields, FaceClassified (refFn fields)) :
    ∀ (params : List String) (acc : List α), FaceClassified (pushVerts refFn acc params) := by
  intro params
  induction params with
  | nil => exact fun acc => Or.inl ⟨acc, rfl⟩
  | cons q qs ih =>
    intro acc
    rcases hc (splitSlash q) with ⟨v, hv⟩ | hv | hv | hv
    · simpa only [pushVerts, hv] using ih (acc ++ [v])
    · simp [pushVerts, hv, FaceClassified]
    · simp [pushVerts, hv, FaceClassified]
    · simp [pushVerts, hv, FaceClassified]

theorem pushVerts_not_ok {α : Type} (refFn : List (List Char) → ParseOutcome α)
    {params : List String} {param : String}
    (hmem : param ∈ params) (hbad : ∀ v, refFn (splitSlash param) ≠ .ok v) :
    ∀ (acc : List α) (l : List α), pushVerts refFn acc params ≠ .ok l := by
  induction params with
  | nil => cases hmem
  | cons q qs ih =>
    intro acc l h
    rcases hq : refFn (splitSlash q) with v | e | k
    · simp only [pushVerts, hq] at h
      rcases List.mem_cons.mp hmem with rfl | hmem'
      · exact hbad v hq
      · exact ih hmem' _ l h
    · simp [pushVerts, hq] at h
    · simp [pushVerts, hq] at h

theorem parseFace_cons (first : String) (rest : List String)
    (hlen : ¬ ((first :: rest).length < 3)) :
    parseFace (first :: rest) = parseFaceBody first rest := by
  unfold parseFace
  rw [if_neg hlen]

theorem parseFaceBody_sP {first : String} {p : List Char}
    (hs : splitSlash first = [p]) (rest : List String) :
    parseFaceBody first rest =
      (nIndex p).bind fun i =>
        (pushVerts refP [i] rest).bind fun l => .ok (Polygon.P l) := by
  unfold parseFaceBody
  rw [hs]

theorem parseFaceBody_sPT {first : String} {p t : List Char}
    (hs : splitSlash first = [p, t]) (rest : List String) :
    parseFaceBody first rest =
      (nIndex p).bind fun a => (nIndex t).bind fun b =>
        (pushVerts refPT [(a, b)] rest).bind fun l => .ok (Polygon.PT l) := by
  rcases t with _ | ⟨c, cs⟩ <;>
    · unfold parseFaceBody
      rw [hs]

theorem parseFaceBody_sPN {first : String} {p u : List Char}
    (hs : splitSlash first = [p, [], u]) (rest : List String) :
    parseFaceBody first rest =
      (nIndex p).bind fun a => (nIndex u).bind fun b =>
        (pushVerts refPN [(a, b)] rest).bind fun l => .ok (Polygon.PN l) := by
  unfold parseFaceBody
  rw [hs]

theorem parseFaceBody_sPTN {first : String} {p u : List Char} {c : Char} {ts : List Char}
    (hs : splitSlash first = [p, c :: ts, u]) (rest : List String) :
    parseFaceBody first rest =
      (nIndex p).bind fun a => (nIndex (c :: ts)).bind fun b => (nIndex u).bind fun d =>
        (pushVerts refPTN [(a, b, d)] rest).bind fun l => .ok (Polygon.PTN l) := by
  unfold parseFaceBody
  rw [hs]

theorem refShape_of_splitSlash_single {s : String} {p : List Char}
    (hs : splitSlash s = [p]) : refShape s = some .sP := by
  unfold refShape
  rw [hs]

theorem refShape_of_splitSlash_pair {s : String} {p t : List Char}
    (hs : splitSlash s = [p, t]) : refShape s = some .sPT := by
  rcases t with _ | ⟨c, cs⟩ <;>
    · unfold refShape
      rw [hs]

theorem refShape_of_splitSlash_mid_nil {s : String} {p u : List Char}
    (hs : splitSlash s = [p, [], u]) : refShape s = some .sPN := by
  unfold refShape
  rw [hs]

theorem refShape_of_splitSlash_mid_cons {s : String} {p u ts : List Char} {c : Char}
    (hs : splitSlash s = [p, c :: ts, u]) : refShape s = some .sPTN := by
  unfold refShape
  rw [hs]

theorem refShape_inv (s : String) (sh : FaceShape) (h : refShape s = some sh) :
    (∃ p, splitSlash s = [p] ∧ sh = .sP) ∨
    (∃ p t, splitSlash s = [p, t] ∧ sh = .sPT) ∨
    (∃ p u, splitSlash s = [p, [], u] ∧ sh = .sPN) ∨
    (∃ p c ts u, splitSlash s = [p, c :: ts, u] ∧ sh = .sPTN) := by
  rcases hs : splitSlash s with _ | ⟨p, _ | ⟨t, _ | ⟨u, _ | ⟨w, r⟩⟩⟩⟩
  · unfold refShape at h
    rw [hs] at h
    have h2 : (none : Option FaceShape) = some sh := h
    cases h2
  · have h2 := (refShape_of_splitSlash_single hs).symm.trans h
    injection h2 with h3
    exact Or.inl ⟨p, rfl, h3.symm⟩
  · have h2 := (refShape_of_splitSlash_pair hs).symm.trans h
    injection h2 with h3
    exact Or.inr (Or.inl ⟨p, t, rfl, h3.symm⟩)
  · rcases t with _ | ⟨c, ts⟩
    · have h2 := (refShape_of_splitSlash_mid_nil hs).symm.trans h
      injection h2 with h3
      exact Or.inr (Or.inr (Or.inl ⟨p, u, rfl, h3.symm⟩))
    · have h2 := (refShape_of_splitSlash_mid_cons hs).symm.trans h
      injection h2 with h3
      exact Or.inr (Or.inr (Or.inr ⟨p, c, ts, u, rfl, h3.symm⟩))
  · unfold refShape at h
    rw [hs] at h
    rcases t with _ | ⟨c, ts⟩ <;>
      · have h2 : (none : Option FaceShape) = some sh := h
        cases h2

theorem refP_mismatch {param : String} (h : refShape param ≠ some .sP) :
    ∀ v, refP (splitSlash param) ≠ .ok v := by
  intro v hv
  rcases hs : splitSlash param with _ | ⟨p, _ | ⟨t, r⟩⟩ <;> rw [hs] at hv
  · have hv2 : (ParseOutcome.panic .unimplemented : ParseOutcome Nat) = .ok v := hv
    cases hv2
  · exact h (refShape_of_splitSlash_single hs)
  · have hv2 : (ParseOutcome.panic .unimplemented : ParseOutcome Nat) = .ok v := hv
    cases hv2

theorem refPT_mismatch {param : String} (h : refShape param ≠ some .sPT) :
    ∀ v, refPT (splitSlash param) ≠ .ok v := by
  intro v hv
  rcases hs : splitSlash param with _ | ⟨p, _ | ⟨t, _ | ⟨u, r⟩⟩⟩ <;> rw [hs] at hv
  · have hv2 : (ParseOutcome.panic .unimplemented : ParseOutcome (Nat × Nat)) = .ok v := hv
    cases hv2
  · have hv2 : (ParseOutcome.panic .unimplemented : ParseOutcome (Nat × Nat)) = .ok v := hv
    cases hv2
  · exact h (refShape_of_splitSlash_pair hs)
  · have hv2 : (ParseOutcome.panic .unimplemented : ParseOutcome (Nat × Nat)) = .ok v := hv
    cases hv2

theorem refPN_mismatch {param : String} (h : refShape param ≠ some .sPN) :
    ∀ v, refPN (splitSlash param) ≠ .ok v := by
  intro v hv
  rcases hs : splitSlash param with _ | ⟨p, _ | ⟨t, _ | ⟨u, _ | ⟨w, r⟩⟩⟩⟩ <;> rw [hs] at hv
  · have hv2 : (ParseOutcome.panic .unimplemented : ParseOutcome (Nat × Nat)) = .ok v := hv
    cases hv2
  · have hv2 : (ParseOutcome.panic .unimplemented : ParseOutcome (Nat × Nat)) = .ok v := hv
    cases hv2
  · rcases t with _ | ⟨c, ts⟩
    · have hv2 : (ParseOutcome.panic .unimplemented : ParseOutcome (Nat × Nat)) = .ok v := hv
      cases hv2
    · have hv2 : (ParseOutcome.panic .unimplemented : ParseOutcome (Nat × Nat)) = .ok v := hv
      cases hv2
  · rcases t with _ | ⟨c, ts⟩
    · exact h (refShape_of_splitSlash_mid_nil hs)
    · have hv2 : (ParseOutcome.panic .unimplemented : ParseOutcome (Nat × Nat)) = .ok v := hv
      cases hv2
  · rcases t with _ | ⟨c, ts⟩ <;>
      · have hv2 : (ParseOutcome.panic .unimplemented : ParseOutcome (Nat × Nat)) = .ok v := hv
        cases hv2

theorem refPTN_mismatch {param : String} (h : refShape param ≠ some .sPTN) :
    ∀ v, refPTN (splitSlash param) ≠ .ok v := by
  intro v hv
  rcases hs : splitSlash param with _ | ⟨p, _ | ⟨t, _ | ⟨u, _ | ⟨w, r⟩⟩⟩⟩ <;> rw [hs] at hv
  · have hv2 : (ParseOutcome.panic .unimplemented : ParseOutcome (Nat × Nat × Nat)) = .ok v := hv
    cases hv2
  · have hv2 : (ParseOutcome.panic .unimplemented : ParseOutcome (Nat × Nat × Nat)) = .ok v := hv
    cases hv2
  · have hv2 : (ParseOutcome.panic .unimplemented : ParseOutcome (Nat × Nat × Nat)) = .ok v := hv
    cases hv2
  · rcases t with _ | ⟨c, ts⟩
    · -- a `p//n` reference matches the `[p, t, u]` pattern with an empty middle
      -- field, and `nIndex []` is a parse error, so the result is never `ok`.
      have hv' : ((nIndex p).bind fun a => (nIndex ([] : List Char)).bind fun b =>
          (nIndex u).bind fun c => .ok (a, b, c)) = ParseOutcome.ok v := hv
      rcases bind_ok_inv hv' with ⟨a, ha, hrest⟩
      rw [nIndex_nil] at hrest
      simp at hrest
    · exact h (refShape_of_splitSlash_mid_cons hs)
  · have hv2 : (ParseOutcome.panic .unimplemented : ParseOutcome (Nat × Nat × Nat)) = .ok v := hv
    cases hv2

/-! ### Range-chain lemmas -/

theorem chainClosed_mono {l : List Range} {lo n lo' n' : Nat}
    (h : ChainClosed l lo n) (hlo : lo' ≤ lo) (hn : n ≤ n') : ChainClosed l lo' n' := by
  induction l generalizing lo lo' with
  | nil => trivial
  | cons r rs ih =>
    obtain ⟨h1, h2, h3, h4⟩ := h
    exact ⟨le_trans hlo h1, h2, le_trans h3 hn, ih h4 le_rfl⟩

theorem ChainClosed.append {l : List Range} {lo s a e n : Nat}
    (h : ChainClosed l lo s) (hlos : lo ≤ s) (hsa : s ≤ a) (hae : a < e) (hen : e ≤ n) :
    ChainClosed (l ++ [⟨a, e⟩]) lo n := by
  induction l generalizing lo with
  | nil => exact ⟨le_trans hlos hsa, hae, hen, trivial⟩
  | cons r rs ih =>
    obtain ⟨h1, h2, h3, h4⟩ := h
    exact ⟨h1, h2, by omega, ih h4 h3⟩

theorem ChainClosed.eq_nil_of_zero {l : List Range} {lo : Nat}
    (h : ChainClosed l lo 0) : l = [] := by
  cases l with
  | nil => rfl
  | cons r rs =>
    obtain ⟨_, h2, h3, _⟩ := h
    omega

theorem ChainClosed.bounds {l : List Range} {lo n : Nat} (h : ChainClosed l lo n) :
    ∀ r ∈ l, lo ≤ r.start ∧ r.start < r.«end» ∧ r.«end» ≤ n := by
  induction l generalizing lo with
  | nil => intro r hr; cases hr
  | cons q rs ih =>
    obtain ⟨h1, h2, h3, h4⟩ := h
    intro r hr
    rcases List.mem_cons.mp hr with rfl | hr'
    · exact ⟨h1, h2, h3⟩
    · obtain ⟨g1, g2, g3⟩ := ih h4 r hr'
      exact ⟨by omega, g2, g3⟩

theorem ChainClosed.chain' {l : List Range} {lo n : Nat} (h : ChainClosed l lo n) :
    l.Chain' (fun a b => a.start ≤ b.start ∧ a.«end» ≤ b.start) := by
  induction l generalizing lo with
  | nil => exact List.chain'_nil
  | cons q rs ih =>
    obtain ⟨h1, h2, h3, h4⟩ := h
    rcases rs with _ | ⟨r2, rs'⟩
    · exact List.chain'_singleton q
    · obtain ⟨g1, g2, g3, g4⟩ := h4
      exact List.chain'_cons.mpr ⟨⟨by omega, g1⟩, ih ⟨g1, g2, g3, g4⟩⟩

theorem chainClosed_rangesOk {l : List Range} {n : Nat} (h : ChainClosed l 0 n)
    (hn : n < UNDEFINED) : RangesOk l := by
  refine ⟨fun r hr => ?_, h.chain'⟩
  obtain ⟨_, h2, h3⟩ := h.bounds r hr
  exact ⟨h2, Nat.ne_of_lt (lt_of_le_of_lt h3 hn)⟩

/-! ### `endVec` and `Group` lemmas -/

theorem endVec_concat (pre : List Range) (r : Range) (e : Nat) :
    endVec (pre ++ [r]) e =
      if r.«end» = UNDEFINED then
        if r.start ≠ e then some (pre ++ [⟨r.start, e⟩]) else some pre
      else none := by
  unfold endVec
  rw [List.getLast?_concat, List.dropLast_concat]

theorem endVec_open (pre : List Range) (s e : Nat) :
    endVec (pre ++ [⟨s, UNDEFINED⟩]) e =
      if s ≠ e then some (pre ++ [⟨s, e⟩]) else some pre := by
  rw [endVec_concat]
  rw [if_pos (rfl : (Range.mk s UNDEFINED).«end» = UNDEFINED)]

theorem endVec_active {l : List Range} {n : Nat} (h : ActiveKind l n) :
    ∃ l', endVec l n = some l' ∧ InactiveKind l' n := by
  obtain ⟨pre, s, rfl, hchain, hs⟩ := h
  rw [endVec_open]
  by_cases hsn : s = n
  · rw [if_neg (by omega)]
    exact ⟨pre, rfl, chainClosed_mono hchain le_rfl (by omega)⟩
  · rw [if_pos hsn]
    exact ⟨_, rfl, hchain.append (Nat.zero_le s) le_rfl (by omega) le_rfl⟩

theorem inactiveKind_mono {l : List Range} {n n' : Nat} (h : InactiveKind l n)
    (hn : n ≤ n') : InactiveKind l n' :=
  chainClosed_mono h le_rfl hn

theorem activeKind_mono {l : List Range} {n n' : Nat} (h : ActiveKind l n)
    (hn : n ≤ n') : ActiveKind l n' := by
  obtain ⟨pre, s, he, hc, hs⟩ := h
  exact ⟨pre, s, he, hc, le_trans hs hn⟩

theorem groupClosed_mono {g : Group} {c c' : Counts} (h : GroupClosed g c)
    (h1 : c.1 ≤ c'.1) (h2 : c.2.1 ≤ c'.2.1) (h3 : c.2.2 ≤ c'.2.2) :
    GroupClosed g c' :=
  ⟨inactiveKind_mono h.1 h1, inactiveKind_mono h.2.1 h2, inactiveKind_mono h.2.2 h3⟩

theorem groupOpen_mono {g : Group} {c c' : Counts} (h : GroupOpen g c)
    (h1 : c.1 ≤ c'.1) (h2 : c.2.1 ≤ c'.2.1) (h3 : c.2.2 ≤ c'.2.2) :
    GroupOpen g c' :=
  ⟨activeKind_mono h.1 h1, activeKind_mono h.2.1 h2, activeKind_mono h.2.2 h3⟩

theorem Group.start_open {g : Group} {c : Counts} (h : GroupClosed g c) :
    GroupOpen (g.start c) c :=
  ⟨⟨g.points, c.1, rfl, h.1, le_rfl⟩, ⟨g.lines, c.2.1, rfl, h.2.1, le_rfl⟩,
    ⟨g.polygons, c.2.2, rfl, h.2.2, le_rfl⟩⟩

theorem Group.new_open (c : Counts) : GroupOpen (Group.new c) c :=
  Group.start_open ⟨trivial, trivial, trivial⟩

theorem Group.end_of_open {g : Group} {c : Counts} (h : GroupOpen g c) :
    ∃ g' bE, Group.«end» g c = some (g', bE) ∧ GroupClosed g' c ∧
      (bE = true ↔ g'.points = [] ∧ g'.lines = [] ∧ g'.polygons = []) := by
  obtain ⟨hp, hl, hf⟩ := h
  obtain ⟨ps, hps, hpi⟩ := endVec_active hp
  obtain ⟨ls, hls, hli⟩ := endVec_active hl
  obtain ⟨fs, hfs, hfi⟩ := endVec_active hf
  refine ⟨⟨ps, ls, fs⟩, ps.isEmpty && ls.isEmpty && fs.isEmpty, ?_, ⟨hpi, hli, hfi⟩, ?_⟩
  · unfold Group.«end»
    rw [hps, hls, hfs]
  · simp [List.isEmpty_iff, Bool.and_eq_true, and_assoc]

/-! ### Builder-invariant lemmas -/

theorem builderInv_mono [DecidableEq K] {b : GroupBuilder K} {c c' : Counts}
    (h : BuilderInv b c) (h1 : c.1 ≤ c'.1) (h2 : c.2.1 ≤ c'.2.1) (h3 : c.2.2 ≤ c'.2.2) :
    BuilderInv b c' := by
  obtain ⟨hnd, hcur, hall⟩ := h
  refine ⟨hnd, hcur, fun k g hg => ⟨fun hc => ?_, fun hc => ?_⟩⟩
  · exact groupOpen_mono ((hall k g hg).1 hc) h1 h2 h3
  · exact groupClosed_mono ((hall k g hg).2 hc) h1 h2 h3

theorem builderOpen_inv [DecidableEq K] (m : List (K × Group)) (c : Counts) (k : K)
    (hnd : (m.map Prod.fst).Nodup)
    (hall : ∀ j g, mapLookup m j = some g → GroupClosed g c) :
    BuilderInv (builderOpen m c k) c := by
  rcases hk : mapLookup m k with _ | g
  · have hb : builderOpen m c k =
        { current := some k, result := m ++ [(k, Group.new c)] } := by
      unfold builderOpen mapInsert
      rw [hk]
    rw [hb]
    have hknotin : k ∉ m.map Prod.fst := (mapLookup_eq_none_iff m k).mp hk
    refine ⟨?_, ?_, ?_⟩
    · rw [List.map_append]
      rw [List.nodup_append_comm]
      exact List.nodup_cons.mpr ⟨hknotin, hnd⟩
    · intro j hj
      injection hj with hj
      subst hj
      rw [mapLookup_append_none hk, mapLookup_cons_pos rfl]
      rfl
    · intro j g' hg'
      constructor
      · intro hj
        injection hj with hj
        subst hj
        rw [mapLookup_append_none hk, mapLookup_cons_pos rfl] at hg'
        injection hg' with hg'
        subst hg'
        exact Group.new_open c
      · intro hj
        have hjk : ¬ (k = j) := fun hh => hj (congrArg some hh)
        rcases hm : mapLookup m j with _ | g0
        · rw [mapLookup_append_none hm, mapLookup_cons_neg hjk] at hg'
          cases hg'
        · rw [mapLookup_append_some hm] at hg'
          injection hg' with hg'
          subst hg'
          exact hall j g0 hm
  · have hb : builderOpen m c k =
        { current := some k, result := mapUpdate m k (g.start c) } := by
      unfold builderOpen
      rw [hk]
    rw [hb]
    refine ⟨?_, ?_, ?_⟩
    · rw [keys_mapUpdate]
      exact hnd
    · intro j hj
      injection hj with hj
      subst hj
      rw [mapLookup_update_self, hk]
      rfl
    · intro j g' hg'
      constructor
      · intro hj
        injection hj with hj
        subst hj
        rw [mapLookup_update_self, hk] at hg'
        injection hg' with hg'
        subst hg'
        exact Group.start_open (hall k g hk)
      · intro hj
        have hjk : j ≠ k := fun hh => hj (congrArg some hh.symm)
        rw [mapLookup_update_ne m _ hjk] at hg'
        exact hall j g' hg'

theorem if_bool_false {α : Sort _} (a b : α) : (if false = true then a else b) = b := rfl

theorem if_bool_true {α : Sort _} (a b : α) : (if true = true then a else b) = a := rfl

theorem closedTable_inv [DecidableEq K] {b : GroupBuilder K} {c : Counts}
    {cur : K} {g g' : Group} (bE : Bool)
    (hnd : (b.result.map Prod.fst).Nodup)
    (hall : ∀ k g0, mapLookup b.result k = some g0 →
      (b.current = some k → GroupOpen g0 c) ∧ (b.current ≠ some k → GroupClosed g0 c))
    (hb : b.current = some cur) (hg : mapLookup b.result cur = some g)
    (hclosed : GroupClosed g' c) :
    (((if bE then mapRemove (mapUpdate b.result cur g') cur
        else mapUpdate b.result cur g').map Prod.fst).Nodup) ∧
    (∀ j g'', mapLookup (if bE then mapRemove (mapUpdate b.result cur g') cur
        else mapUpdate b.result cur g') j = some g'' → GroupClosed g'' c) ∧
    (∀ j, j ≠ cur →
      mapLookup (if bE then mapRemove (mapUpdate b.result cur g') cur
        else mapUpdate b.result cur g') j = mapLookup b.result j) ∧
    mapLookup (if bE then mapRemove (mapUpdate b.result cur g') cur
        else mapUpdate b.result cur g') cur = (if bE then none else some g') := by
  have hne : ∀ j : K, ¬ (j = cur) → b.current ≠ some j := by
    intro j hj hh
    exact hj (Option.some.inj (hb.symm.trans hh)).symm
  cases bE with
  | false =>
    simp only [if_bool_false]
    refine ⟨?_, ?_, ?_, ?_⟩
    · rw [keys_mapUpdate]
      exact hnd
    · intro j g'' hg''
      by_cases hj : j = cur
      · subst hj
        rw [mapLookup_update_self, hg] at hg''
        injection hg'' with hg''
        subst hg''
        exact hclosed
      · rw [mapLookup_update_ne _ _ hj] at hg''
        exact (hall j g'' hg'').2 (hne j hj)
    · intro j hj
      exact mapLookup_update_ne _ _ hj
    · rw [mapLookup_update_self, hg]
      rfl
  | true =>
    simp only [if_bool_true, eq_self_iff_true, if_true]
    refine ⟨?_, ?_, ?_, ?_⟩
    · have h1 : ((mapRemove (mapUpdate b.result cur g') cur).map Prod.fst).Sublist
          ((mapUpdate b.result cur g').map Prod.fst) := keys_mapRemove_sublist _ _
      rw [keys_mapUpdate] at h1
      exact List.Nodup.sublist h1 hnd
    · intro j g'' hg''
      by_cases hj : j = cur
      · subst hj
        rw [mapLookup_remove_self] at hg''
        cases hg''
      · rw [mapLookup_remove_ne _ hj, mapLookup_update_ne _ _ hj] at hg''
        exact (hall j g'' hg'').2 (hne j hj)
    · intro j hj
      rw [mapLookup_remove_ne _ hj, mapLookup_update_ne _ _ hj]
    · exact mapLookup_remove_self _ _

theorem GroupBuilder.start_inv [DecidableEq K] {b : GroupBuilder K} {c : Counts} (k : K)
    (h : BuilderInv b c) : ∃ b', GroupBuilder.start b c k = some b' ∧ BuilderInv b' c := by
  obtain ⟨hnd, hcur, hall⟩ := h
  rcases hb : b.current with _ | cur
  · have hs : GroupBuilder.start b c k = some (builderOpen b.result c k) := by
      unfold GroupBuilder.start
      rw [hb]
    refine ⟨_, hs, builderOpen_inv _ _ _ hnd ?_⟩
    intro j g hg
    exact (hall j g hg).2 (by rw [hb]; exact fun hh => Option.noConfusion hh)
  · by_cases hek : cur = k
    · subst hek
      have hs : GroupBuilder.start b c cur = some b := by
        simp [GroupBuilder.start, hb]
      exact ⟨b, hs, ⟨hnd, hcur, hall⟩⟩
    · obtain ⟨g, hg⟩ := Option.isSome_iff_exists.mp (hcur cur hb)
      have hopen : GroupOpen g c := (hall cur g hg).1 hb
      obtain ⟨g', bE, hend, hclosed, _⟩ := Group.end_of_open hopen
      have hs : GroupBuilder.start b c k =
          some (builderOpen (if bE then mapRemove (mapUpdate b.result cur g') cur
            else mapUpdate b.result cur g') c k) := by
        simp only [GroupBuilder.start, hb, hg, hend]
        rw [if_neg hek]
      obtain ⟨cnd, call, _, _⟩ := closedTable_inv bE hnd hall hb hg hclosed
      exact ⟨_, hs, builderOpen_inv _ _ _ cnd call⟩

theorem GroupBuilder.end_inv [DecidableEq K] {b : GroupBuilder K} {c : Counts}
    (h : BuilderInv b c) :
    ∃ b', GroupBuilder.«end» b c = some b' ∧ b'.current = none ∧ BuilderInv b' c := by
  obtain ⟨hnd, hcur, hall⟩ := h
  rcases hb : b.current with _ | cur
  · have hs : GroupBuilder.«end» b c = some b := by
      unfold GroupBuilder.«end»
      rw [hb]
    exact ⟨b, hs, hb, ⟨hnd, hcur, hall⟩⟩
  · obtain ⟨g, hg⟩ := Option.isSome_iff_exists.mp (hcur cur hb)
    have hopen : GroupOpen g c := (hall cur g hg).1 hb
    obtain ⟨g', bE, hend, hclosed, _⟩ := Group.end_of_open hopen
    have hs : GroupBuilder.«end» b c =
        some { current := none
               result := if bE then mapRemove (mapUpdate b.result cur g') cur
                 else mapUpdate b.result cur g' } := by
      simp only [GroupBuilder.«end», hb, hg, hend]
    obtain ⟨cnd, call, _, _⟩ := closedTable_inv bE hnd hall hb hg hclosed
    refine ⟨_, hs, rfl, cnd, ?_, ?_⟩
    · intro j hj
      cases hj
    · intro j g'' hg''
      exact ⟨fun hh => absurd hh (fun hh => Option.noConfusion hh), fun _ => call j g'' hg''⟩

/-! ### Interpreter-state invariant -/

theorem withGroupB_ok {st st' : PState} {o : Option (GroupBuilder String)}
    (h : withGroupB st o = .ok st') :
    ∃ b, o = some b ∧ st' = { st with group_builder := b } := by
  cases o with
  | some b =>
    have h2 : ParseOutcome.ok { st with group_builder := b } = ParseOutcome.ok st' := h
    injection h2 with h2
    exact ⟨b, rfl, h2.symm⟩
  | none =>
    have h2 : (ParseOutcome.panic .assertFailed : ParseOutcome PState) = .ok st' := h
    cases h2

theorem withMeshB_ok {st st' : PState} {o : Option (GroupBuilder String)}
    (h : withMeshB st o = .ok st') :
    ∃ b, o = some b ∧ st' = { st with mesh_builder := b } := by
  cases o with
  | some b =>
    have h2 : ParseOutcome.ok { st with mesh_builder := b } = ParseOutcome.ok st' := h
    injection h2 with h2
    exact ⟨b, rfl, h2.symm⟩
  | none =>
    have h2 : (ParseOutcome.panic .assertFailed : ParseOutcome PState) = .ok st' := h
    cases h2

theorem withSmoothB_ok {st st' : PState} {o : Option (GroupBuilder Nat)}
    (h : withSmoothB st o = .ok st') :
    ∃ b, o = some b ∧ st' = { st with smoothing_builder := b } := by
  cases o with
  | some b =>
    have h2 : ParseOutcome.ok { st with smoothing_builder := b } = ParseOutcome.ok st' := h
    injection h2 with h2
    exact ⟨b, rfl, h2.symm⟩
  | none =>
    have h2 : (ParseOutcome.panic .assertFailed : ParseOutcome PState) = .ok st' := h
    cases h2

theorem withMergeB_ok {st st' : PState} {o : Option (GroupBuilder Nat)}
    (h : withMergeB st o = .ok st') :
    ∃ b, o = some b ∧ st' = { st with merging_builder := b } := by
  cases o with
  | some b =>
    have h2 : ParseOutcome.ok { st with merging_builder := b } = ParseOutcome.ok st' := h
    injection h2 with h2
    exact ⟨b, rfl, h2.symm⟩
  | none =>
    have h2 : (ParseOutcome.panic .assertFailed : ParseOutcome PState) = .ok st' := h
    cases h2

theorem StateInv.push_polygon {st : PState} (h : StateInv st) (poly : Polygon) :
    StateInv { st with polygons := st.polygons ++ [poly] } := by
  obtain ⟨hp, hl, h1, h2, h3, h4⟩ := h
  have hc : counts { st with polygons := st.polygons ++ [poly] } =
      (st.points.length, st.lines.length, st.polygons.length + 1) := by
    simp [counts]
  refine ⟨hp, hl, ?_, ?_, ?_, ?_⟩ <;> rw [hc]
  · exact builderInv_mono h1 le_rfl le_rfl (Nat.le_succ _)
  · exact builderInv_mono h2 le_rfl le_rfl (Nat.le_succ _)
  · exact builderInv_mono h3 le_rfl le_rfl (Nat.le_succ _)
  · exact builderInv_mono h4 le_rfl le_rfl (Nat.le_succ _)

theorem stepG_inv {st st' : PState} {k : String} (hinv : StateInv st)
    (h : withGroupB st (GroupBuilder.start st.group_builder (counts st) k) = .ok st') :
    StateInv st' ∧ st'.polygons.length ≤ st.polygons.length + 1 := by
  obtain ⟨hpts, hlns, hg1, hg2, hg3, hg4⟩ := hinv
  rcases GroupBuilder.start_inv k hg1 with ⟨b2, hb2, hbi⟩
  rw [hb2] at h
  have h2 : ParseOutcome.ok { st with group_builder := b2 } = ParseOutcome.ok st' := h
  injection h2 with h2
  subst h2
  exact ⟨⟨hpts, hlns, hbi, hg2, hg3, hg4⟩, Nat.le_succ _⟩

theorem stepUse_inv {st st' : PState} {k : String} (hinv : StateInv st)
    (h : withMeshB st (GroupBuilder.start st.mesh_builder (counts st) k) = .ok st') :
    StateInv st' ∧ st'.polygons.length ≤ st.polygons.length + 1 := by
  obtain ⟨hpts, hlns, hg1, hg2, hg3, hg4⟩ := hinv
  rcases GroupBuilder.start_inv k hg2 with ⟨b2, hb2, hbi⟩
  rw [hb2] at h
  have h2 : ParseOutcome.ok { st with mesh_builder := b2 } = ParseOutcome.ok st' := h
  injection h2 with h2
  subst h2
  exact ⟨⟨hpts, hlns, hg1, hbi, hg3, hg4⟩, Nat.le_succ _⟩

theorem stepSStart_inv {st st' : PState} {n : Nat} (hinv : StateInv st)
    (h : withSmoothB st (GroupBuilder.start st.smoothing_builder (counts st) n) = .ok st') :
    StateInv st' ∧ st'.polygons.length ≤ st.polygons.length + 1 := by
  obtain ⟨hpts, hlns, hg1, hg2, hg3, hg4⟩ := hinv
  rcases GroupBuilder.start_inv n hg3 with ⟨b2, hb2, hbi⟩
  rw [hb2] at h
  have h2 : ParseOutcome.ok { st with smoothing_builder := b2 } = ParseOutcome.ok st' := h
  injection h2 with h2
  subst h2
  exact ⟨⟨hpts, hlns, hg1, hg2, hbi, hg4⟩, Nat.le_succ _⟩

theorem stepSEnd_inv {st st' : PState} (hinv : StateInv st)
    (h : withSmoothB st (GroupBuilder.«end» st.smoothing_builder (counts st)) = .ok st') :
    StateInv st' ∧ st'.polygons.length ≤ st.polygons.length + 1 := by
  obtain ⟨hpts, hlns, hg1, hg2, hg3, hg4⟩ := hinv
  rcases GroupBuilder.end_inv hg3 with ⟨b2, hb2, _, hbi⟩
  rw [hb2] at h
  have h2 : ParseOutcome.ok { st with smoothing_builder := b2 } = ParseOutcome.ok st' := h
  injection h2 with h2
  subst h2
  exact ⟨⟨hpts, hlns, hg1, hg2, hbi, hg4⟩, Nat.le_succ _⟩

theorem stepMgStart_inv {st st' : PState} {n : Nat} (hinv : StateInv st)
    (h : withMergeB st (GroupBuilder.start st.merging_builder (counts st) n) = .ok st') :
    StateInv st' ∧ st'.polygons.length ≤ st.polygons.length + 1 := by
  obtain ⟨hpts, hlns, hg1, hg2, hg3, hg4⟩ := hinv
  rcases GroupBuilder.start_inv n hg4 with ⟨b2, hb2, hbi⟩
  rw [hb2] at h
  have h2 : ParseOutcome.ok { st with merging_builder := b2 } = ParseOutcome.ok st' := h
  injection h2 with h2
  subst h2
  exact ⟨⟨hpts, hlns, hg1, hg2, hg3, hbi⟩, Nat.le_succ _⟩

theorem stepMgEnd_inv {st st' : PState} (hinv : StateInv st)
    (h : withMergeB st (GroupBuilder.«end» st.merging_builder (counts st)) = .ok st') :
    StateInv st' ∧ st'.polygons.length ≤ st.polygons.length + 1 := by
  obtain ⟨hpts, hlns, hg1, hg2, hg3, hg4⟩ := hinv
  rcases GroupBuilder.end_inv hg4 with ⟨b2, hb2, _, hbi⟩
  rw [hb2] at h
  have h2 : ParseOutcome.ok { st with merging_builder := b2 } = ParseOutcome.ok st' := h
  injection h2 with h2
  subst h2
  exact ⟨⟨hpts, hlns, hg1, hg2, hg3, hbi⟩, Nat.le_succ _⟩

theorem step_preserves {st st' : PState} {kw : String} {args : List String}
    (hinv : StateInv st) (h : step st kw args = .ok st') :
    StateInv st' ∧ st'.polygons.length ≤ st.polygons.length + 1 := by
  unfold step at h
  repeat' split at h
  all_goals
    first
    | exact stepG_inv hinv h
    | exact stepUse_inv hinv h
    | exact stepSStart_inv hinv h
    | exact stepSEnd_inv hinv h
    | exact stepMgStart_inv hinv h
    | exact stepMgEnd_inv hinv h
    | (injection h with h
       subst h
       exact ⟨hinv, Nat.le_succ _⟩)
    | (injection h with h
       subst h
       exact ⟨hinv.push_polygon _, by simp [List.length_append]⟩)
    | simp at h

theorem runStmts_inv {stmts : List Stmt} {st st' : PState}
    (hinv : StateInv st) (h : runStmts st stmts = .ok st') :
    StateInv st' ∧ st'.polygons.length ≤ st.polygons.length + stmts.length := by
  induction stmts generalizing st with
  | nil =>
    have h2 : ParseOutcome.ok st = ParseOutcome.ok st' := h
    injection h2 with h2
    subst h2
    exact ⟨hinv, by simp⟩
  | cons s rest ih =>
    rcases s with ⟨kw, args⟩
    rcases hstep : step st kw args with st1 | e | k
    · have hrw : runStmts st ((kw, args) :: rest) = runStmts st1 rest := by
        simp only [runStmts, hstep]
      rw [hrw] at h
      obtain ⟨hi1, hlen1⟩ := step_preserves hinv hstep
      obtain ⟨hi2, hlen2⟩ := ih hi1 h
      refine ⟨hi2, ?_⟩
      simp only [List.length_cons]
      omega
    · have hrw : runStmts st ((kw, args) :: rest) = .err e := by
        simp only [runStmts, hstep]
      rw [hrw] at h
      cases h
    · have hrw : runStmts st ((kw, args) :: rest) = .panic k := by
        simp only [runStmts, hstep]
      rw [hrw] at h
      cases h

theorem hashMapBuilder_inv (s : String) : BuilderInv (hashMapBuilder s) (0, 0, 0) := by
  refine ⟨?_, ?_, ?_⟩
  · simp [hashMapBuilder]
  · intro k hk
    injection hk with hk
    subst hk
    have h2 : mapLookup (hashMapBuilder s).result s = some (Group.new (0, 0, 0)) :=
      mapLookup_cons_pos rfl _ _
    rw [h2]
    rfl
  · intro k g hg
    by_cases hk : s = k
    · subst hk
      have h2 : mapLookup (hashMapBuilder s).result s = some (Group.new (0, 0, 0)) :=
        mapLookup_cons_pos rfl _ _
      rw [h2] at hg
      injection hg with hg
      subst hg
      constructor
      · intro _
        exact Group.new_open (0, 0, 0)
      · intro hc
        exact absurd rfl hc
    · have h2 : mapLookup (hashMapBuilder s).result k = mapLookup [] k :=
        mapLookup_cons_neg hk _ _
      rw [h2] at hg
      cases hg

theorem vecMapBuilder_inv : BuilderInv vecMapBuilder (0, 0, 0) := by
  refine ⟨List.nodup_nil, ?_, ?_⟩
  · intro k hk
    cases hk
  · intro k g hg
    cases hg

theorem initState_inv : StateInv initState :=
  ⟨rfl, rfl, hashMapBuilder_inv "default", hashMapBuilder_inv "",
    vecMapBuilder_inv, vecMapBuilder_inv⟩

theorem flushState_ok {st : PState} (h : StateInv st) :
    ∃ st', flushState st = some st' ∧ StateInv st' ∧
      st'.group_builder.current = none ∧ st'.mesh_builder.current = none ∧
      st'.smoothing_builder.current = none ∧ st'.merging_builder.current = none ∧
      st'.points = st.points ∧ st'.lines = st.lines ∧ st'.polygons = st.polygons := by
  obtain ⟨hpts, hlns, h1, h2, h3, h4⟩ := h
  obtain ⟨b1, e1, c1, i1⟩ := GroupBuilder.end_inv h1
  obtain ⟨b2, e2, c2, i2⟩ := GroupBuilder.end_inv h2
  obtain ⟨b3, e3, c3, i3⟩ := GroupBuilder.end_inv h3
  obtain ⟨b4, e4, c4, i4⟩ := GroupBuilder.end_inv h4
  refine ⟨{ st with group_builder := b1, mesh_builder := b2, smoothing_builder := b3, merging_builder := b4 }, ?_, ⟨hpts, hlns, i1, i2, i3, i4⟩, c1, c2, c3, c4, rfl, rfl, rfl⟩
  unfold flushState
  rw [e1, e2, e3, e4]
  rfl

theorem parse_obj_ok_inv {stmts : List Stmt} {r : RawObj} (h : parse_obj stmts = .ok r) :
    ∃ st2, StateInv st2 ∧ r = mkRawObj st2 ∧
      st2.group_builder.current = none ∧ st2.mesh_builder.current = none ∧
      st2.smoothing_builder.current = none ∧ st2.merging_builder.current = none ∧
      st2.points = [] ∧ st2.lines = [] ∧ st2.polygons.length ≤ stmts.length := by
  rcases hrun : runStmts initState stmts with st1 | e | k
  · rcases hfl : flushState st1 with _ | st2
    · have hcomp : parse_obj stmts = .panic .assertFailed := by
        simp only [parse_obj, hrun, hfl]
      rw [hcomp] at h
      cases h
    · have hcomp : parse_obj stmts = .ok (mkRawObj st2) := by
        simp only [parse_obj, hrun, hfl]
      rw [hcomp] at h
      injection h with h2
      obtain ⟨hinv1, hplen⟩ := runStmts_inv initState_inv hrun
      obtain ⟨st2', hf', hi2, c1, c2, c3, c4, hp, hl, hpo⟩ := flushState_ok hinv1
      rw [hfl] at hf'
      injection hf' with hf'
      subst hf'
      refine ⟨st2, hi2, h2.symm, c1, c2, c3, c4, ?_, ?_, ?_⟩
      · rw [hp]
        exact hinv1.1
      · rw [hl]
        exact hinv1.2.1
      · rw [hpo]
        simpa [initState] using hplen
  · have hcomp : parse_obj stmts = .err e := by
      simp only [parse_obj, hrun]
    rw [hcomp] at h
    cases h
  · have hcomp : parse_obj stmts = .panic k := by
      simp only [parse_obj, hrun]
    rw [hcomp] at h
    cases h

theorem final_table_ok [DecidableEq K] {b : GroupBuilder K} {c : Counts}
    (hinv : BuilderInv b c) (hcur : b.current = none)
    (h1 : c.1 < UNDEFINED) (h2 : c.2.1 < UNDEFINED) (h3 : c.2.2 < UNDEFINED) :
    ∀ p ∈ b.result, GroupOk p.2 := by
  obtain ⟨hnd, _, hall⟩ := hinv
  intro p hp
  rcases p with ⟨k, g⟩
  have hl : mapLookup b.result k = some g := lookup_of_mem_nodup hp hnd
  have hclosed : GroupClosed g c :=
    (hall k g hl).2 (by rw [hcur]; exact fun hh => Option.noConfusion hh)
  exact ⟨chainClosed_rangesOk hclosed.1 h1, chainClosed_rangesOk hclosed.2.1 h2,
    chainClosed_rangesOk hclosed.2.2 h3⟩

theorem final_table_pl_empty [DecidableEq K] {b : GroupBuilder K} {n : Nat}
    (hinv : BuilderInv b (0, 0, n)) (hcur : b.current = none) :
    ∀ p ∈ b.result, p.2.points = [] ∧ p.2.lines = [] := by
  obtain ⟨hnd, _, hall⟩ := hinv
  intro p hp
  rcases p with ⟨k, g⟩
  have hl : mapLookup b.result k = some g := lookup_of_mem_nodup hp hnd
  have hclosed : GroupClosed g (0, 0, n) :=
    (hall k g hl).2 (by rw [hcur]; exact fun hh => Option.noConfusion hh)
  exact ⟨hclosed.1.eq_nil_of_zero, hclosed.2.1.eq_nil_of_zero⟩

/-! ### Claim C3 -/

/-- C3: for a group with one open range per element kind and counts at least
each open range's start, `Group::end` sets the end of each open range whose
start differs from the count, discards zero-length ranges entirely, and
returns `true` iff the group is left with zero ranges; the builder's `end`
(and `start`, when switching keys) then removes exactly the groups for which
`Group::end` returned `true`, leaving every other key untouched. -/
theorem C3_group_end_closes :
    (∀ (pp pl pf : List Range) (sp sl sf np nl nf : Nat),
      sp ≤ np → sl ≤ nl → sf ≤ nf →
      ∃ g' bE,
        Group.«end»
            ⟨pp ++ [⟨sp, UNDEFINED⟩], pl ++ [⟨sl, UNDEFINED⟩], pf ++ [⟨sf, UNDEFINED⟩]⟩
            (np, nl, nf) = some (g', bE) ∧
        g'.points = (if sp = np then pp else pp ++ [⟨sp, np⟩]) ∧
        g'.lines = (if sl = nl then pl else pl ++ [⟨sl, nl⟩]) ∧
        g'.polygons = (if sf = nf then pf else pf ++ [⟨sf, nf⟩]) ∧
        (bE = true ↔ g'.points = [] ∧ g'.lines = [] ∧ g'.polygons = [])) ∧
    (∀ (K : Type) (inst : DecidableEq K) (b : GroupBuilder K) (k : K) (g g' : Group)
        (c : Counts) (bE : Bool),
      b.current = some k → mapLookup b.result k = some g →
      Group.«end» g c = some (g', bE) →
      ∃ b', GroupBuilder.«end» b c = some b' ∧ b'.current = none ∧
        (bE = true → mapLookup b'.result k = none) ∧
        (bE = false → mapLookup b'.result k = some g') ∧
        (∀ j, j ≠ k → mapLookup b'.result j = mapLookup b.result j)) := by
  constructor
  · intro pp pl pf sp sl sf np nl nf hp hl hf
    refine ⟨⟨(if sp = np then pp else pp ++ [⟨sp, np⟩]),
            (if sl = nl then pl else pl ++ [⟨sl, nl⟩]),
            (if sf = nf then pf else pf ++ [⟨sf, nf⟩])⟩,
          ((if sp = np then pp else pp ++ [⟨sp, np⟩]).isEmpty &&
            (if sl = nl then pl else pl ++ [⟨sl, nl⟩]).isEmpty &&
            (if sf = nf then pf else pf ++ [⟨sf, nf⟩]).isEmpty), ?_, rfl, rfl, rfl, ?_⟩
    · unfold Group.«end»
      rw [endVec_open, endVec_open, endVec_open]
      by_cases h1 : sp = np <;> by_cases h2 : sl = nl <;> by_cases h3 : sf = nf <;>
        simp [h1, h2, h3]
    · simp [List.isEmpty_iff, Bool.and_eq_true, and_assoc]
  · intro K inst b k g g' c bE hb hg hend
    have hs : GroupBuilder.«end» b c =
        some { current := none
               result := if bE then mapRemove (mapUpdate b.result k g') k
                 else mapUpdate b.result k g' } := by
      simp only [GroupBuilder.«end», hb, hg, hend]
    refine ⟨_, hs, rfl, ?_, ?_, ?_⟩
    · intro hbe
      subst hbe
      rw [if_pos rfl]
      exact mapLookup_remove_self _ _
    · intro hbe
      subst hbe
      rw [if_neg (by simp)]
      rw [mapLookup_update_self, hg]
      rfl
    · intro j hj
      cases bE with
      | false =>
        rw [if_neg (by simp)]
        exact mapLookup_update_ne _ _ hj
      | true =>
        rw [if_pos rfl]
        rw [mapLookup_remove_ne _ hj, mapLookup_update_ne _ _ hj]

/-- Witness for C3 at a concrete group and builder. -/
theorem C3_group_end_closes_witness :
    (∃ g' bE,
      Group.«end» ⟨[⟨0, UNDEFINED⟩], [⟨0, UNDEFINED⟩], [⟨0, UNDEFINED⟩]⟩ (0, 0, 1)
          = some (g', bE) ∧
      g'.points = [] ∧ g'.lines = [] ∧
      g'.polygons = [⟨0, 1⟩] ∧
      (bE = true ↔ g'.points = [] ∧ g'.lines = [] ∧ g'.polygons = [])) := by
  have h := C3_group_end_closes.1 [] [] [] 0 0 0 0 0 1 (by omega) (by omega) (by omega)
  simpa using h

/-! ### Claims C1, C2, C10 -/

/-- C1 counterexample: in `f 1 2/3 4` the second vertex reference has a
different shape (`p/t`) from the first (`p`), and the parse aborts with an
`unimplemented!()` panic — not the typed format-error result the claim
asserts. -/
theorem C1_counterexample :
    parse_obj [("f", ["1", "2/3", "4"])] = .panic .unimplemented := rfl

/-- C1 (amended): for every `f` statement with at least 3 arguments, the first
vertex reference's shape fixes the shape for all remaining vertices; any
subsequent vertex reference using a different shape prevents the face from
parsing — the parse aborts with an `unimplemented!()` panic (pattern
mismatch), an index-underflow panic, or a typed numeric-parse error (a
`p//n` reference under a `p/t/n` first vertex matches the pattern with an
empty middle field and fails numeric parsing) — never returning a parsed
polygon and never a `WrongTypeOfArguments` format error. -/
theorem C1_mixed_shape_aborts (args : List String) (first : String)
    (rest : List String) (sh : FaceShape) (param : String)
    (hargs : args = first :: rest) (hlen : 3 ≤ args.length)
    (hsh : refShape first = some sh) (hmem : param ∈ rest)
    (hdiff : refShape param ≠ some sh) :
    (∀ poly, parseFace args ≠ .ok poly) ∧
    (parseFace args = .panic .unimplemented ∨ parseFace args = .panic .underflow ∨
      parseFace args = .err .ParseFailure) := by
  subst hargs
  have hnot : ¬ ((first :: rest).length < 3) := by omega
  rw [parseFace_cons first rest hnot]
  rcases refShape_inv first sh hsh with
    ⟨p, hs, hshp⟩ | ⟨p, t, hs, hshp⟩ | ⟨p, u, hs, hshp⟩ | ⟨p, c, ts, u, hs, hshp⟩
  · subst hshp
    rw [parseFaceBody_sP hs]
    have hnotok : ∀ poly, ((nIndex p).bind fun i =>
        (pushVerts refP [i] rest).bind fun l => ParseOutcome.ok (Polygon.P l)) ≠ .ok poly := by
      intro poly hok
      rcases bind_ok_inv hok with ⟨i, _, hok2⟩
      rcases bind_ok_inv hok2 with ⟨l, hl, _⟩
      exact pushVerts_not_ok refP hmem (refP_mismatch hdiff) _ l hl
    refine ⟨hnotok, classified_not_ok ?_ hnotok⟩
    exact (nIndex_classified p).bind fun i =>
      (pushVerts_classified refP refP_classified rest [i]).bind fun l => Or.inl ⟨_, rfl⟩
  · subst hshp
    rw [parseFaceBody_sPT hs]
    have hnotok : ∀ poly, ((nIndex p).bind fun a => (nIndex t).bind fun b =>
        (pushVerts refPT [(a, b)] rest).bind fun l =>
          ParseOutcome.ok (Polygon.PT l)) ≠ .ok poly := by
      intro poly hok
      rcases bind_ok_inv hok with ⟨a, _, hok2⟩
      rcases bind_ok_inv hok2 with ⟨b, _, hok3⟩
      rcases bind_ok_inv hok3 with ⟨l, hl, _⟩
      exact pushVerts_not_ok refPT hmem (refPT_mismatch hdiff) _ l hl
    refine ⟨hnotok, classified_not_ok ?_ hnotok⟩
    exact (nIndex_classified p).bind fun a => (nIndex_classified t).bind fun b =>
      (pushVerts_classified refPT refPT_classified rest [(a, b)]).bind fun l =>
        Or.inl ⟨_, rfl⟩
  · subst hshp
    rw [parseFaceBody_sPN hs]
    have hnotok : ∀ poly, ((nIndex p).bind fun a => (nIndex u).bind fun b =>
        (pushVerts refPN [(a, b)] rest).bind fun l =>
          ParseOutcome.ok (Polygon.PN l)) ≠ .ok poly := by
      intro poly hok
      rcases bind_ok_inv hok with ⟨a, _, hok2⟩
      rcases bind_ok_inv hok2 with ⟨b, _, hok3⟩
      rcases bind_ok_inv hok3 with ⟨l, hl, _⟩
      exact pushVerts_not_ok refPN hmem (refPN_mismatch hdiff) _ l hl
    refine ⟨hnotok, classified_not_ok ?_ hnotok⟩
    exact (nIndex_classified p).bind fun a => (nIndex_classified u).bind fun b =>
      (pushVerts_classified refPN refPN_classified rest [(a, b)]).bind fun l =>
        Or.inl ⟨_, rfl⟩
  · subst hshp
    rw [parseFaceBody_sPTN hs]
    have hnotok : ∀ poly, ((nIndex p).bind fun a => (nIndex (c :: ts)).bind fun b =>
        (nIndex u).bind fun d => (pushVerts refPTN [(a, b, d)] rest).bind fun l =>
          ParseOutcome.ok (Polygon.PTN l)) ≠ .ok poly := by
      intro poly hok
      rcases bind_ok_inv hok with ⟨a, _, hok2⟩
      rcases bind_ok_inv hok2 with ⟨b, _, hok3⟩
      rcases bind_ok_inv hok3 with ⟨d, _, hok4⟩
      rcases bind_ok_inv hok4 with ⟨l, hl, _⟩
      exact pushVerts_not_ok refPTN hmem (refPTN_mismatch hdiff) _ l hl
    refine ⟨hnotok, classified_not_ok ?_ hnotok⟩
    exact (nIndex_classified p).bind fun a => (nIndex_classified (c :: ts)).bind fun b =>
      (nIndex_classified u).bind fun d =>
        (pushVerts_classified refPTN refPTN_classified rest [(a, b, d)]).bind fun l =>
          Or.inl ⟨_, rfl⟩

/-- Witness for the amended C1 theorem at the concrete face `f 1 2/3 4`. -/
theorem C1_mixed_shape_aborts_witness :
    (∀ poly, parseFace ["1", "2/3", "4"] ≠ .ok poly) ∧
    (parseFace ["1", "2/3", "4"] = .panic .unimplemented ∨
      parseFace ["1", "2/3", "4"] = .panic .underflow ∨
      parseFace ["1", "2/3", "4"] = .err .ParseFailure) :=
  C1_mixed_shape_aborts ["1", "2/3", "4"] "1" ["2/3", "4"] .sP "2/3" rfl (by decide)
    (by decide) (by decide) (by decide)

/-- C2 counterexample: `bmat` (a recognized but not-yet-interpretable
keyword) aborts the parse with an `unimplemented!()` panic — a crash — not an
outcome of the error taxonomy as the claim asserts. -/
theorem C2_counterexample :
    parse_obj [("bmat", [])] = .panic .unimplemented := rfl

/-- C2 (amended): every recognized but not-yet-interpretable keyword
(free-form curve/surface statements, `p`/`l` elements, connectivity, render
attributes) aborts with an `unimplemented!()` panic — for `cstype` and `deg`
after argument validation — which is distinct from the `UnexpectedStatement`
typed error produced for truly unknown keywords, but is a crash rather than a
member of the error taxonomy. -/
theorem C2_unimplemented_keywords :
    (∀ kw, kw ∈ ["bmat", "step", "p", "l", "curv", "curv2", "surf", "parm", "trim",
        "hole", "scrv", "sp", "end", "con", "bevel", "c_interp", "d_interp", "lod",
        "shadow_obj", "trace_obj", "ctech", "stech"] →
      ∀ st args, step st kw args = .panic .unimplemented) ∧
    (∀ st ty, ty ∈ ["bmatrix", "bezier", "bspline", "cardinal", "taylor"] →
      step st "cstype" [ty] = .panic .unimplemented) ∧
    (∀ st arg x, parseF32 arg = some x → step st "deg" [arg] = .panic .unimplemented) ∧
    (∀ st args, step st "frobnicate" args = .err .UnexpectedStatement) ∧
    (∀ e : ObjError, (ParseOutcome.panic .unimplemented : ParseOutcome PState) ≠ .err e) := by
  refine ⟨?_, ?_, ?_, ?_, ?_⟩
  · intro kw hkw
    fin_cases hkw <;> exact fun st args => rfl
  · intro st ty hty
    fin_cases hty <;> rfl
  · intro st arg x hx
    have hpf : parseFloats [arg] = some [x] := by
      simp only [parseFloats]
      rw [hx]
    show (match parseFloats [arg] with
      | none => ParseOutcome.err .ParseFailure
      | some [_, _] => ParseOutcome.panic .unimplemented
      | some [_] => ParseOutcome.panic .unimplemented
      | some _ => ParseOutcome.err .WrongNumberOfArguments) = ParseOutcome.panic .unimplemented
    rw [hpf]
  · intro st args
    rfl
  · intro e h
    cases h

/-- Witness for the amended C2 theorem at concrete keywords. -/
theorem C2_unimplemented_keywords_witness :
    step initState "bmat" [] = .panic .unimplemented ∧
    step initState "cstype" ["bezier"] = .panic .unimplemented ∧
    step initState "deg" ["2"] = .panic .unimplemented :=
  ⟨C2_unimplemented_keywords.1 "bmat" (by decide) initState [],
   C2_unimplemented_keywords.2.1 initState "bezier" (by decide),
   C2_unimplemented_keywords.2.2.1 initState "2" ((2 : Nat) : Rat) (by rfl)⟩

/-- C10: every face index field is parsed as an unsigned integer and
decremented to 0-based form. The decrement is total only when the parsed
index is at least 1: an index token parsing to 0 underflows the `usize`
subtraction (a panic, not a typed error), while non-numeric or negative
tokens surface as a typed parse error. -/
theorem C10_index_conversion :
    (∀ (cs : List Char) (n : Nat), parseNatList cs = some n → 1 ≤ n →
      nIndex cs = .ok (n - 1)) ∧
    nIndex ['0'] = .panic .underflow ∧
    (∀ cs, parseNatList cs = none → nIndex cs = .err .ParseFailure) ∧
    parse_obj [("f", ["0", "1", "2"])] = .panic .underflow := by
  refine ⟨?_, rfl, ?_, rfl⟩
  · intro cs n h h1
    have h0 : ¬ (n = 0) := by omega
    unfold nIndex
    rw [h]
    show (if n = 0 then ParseOutcome.panic .underflow else .ok (n - 1)) = .ok (n - 1)
    rw [if_neg h0]
  · intro cs h
    unfold nIndex
    rw [h]

/-- Witness for C10 at the concrete index token `3`. -/
theorem C10_index_conversion_witness : nIndex ['3'] = .ok 2 :=
  C10_index_conversion.1 ['3'] 3 (by decide) (by decide)

/-! ### Claims C4 and C5 -/

/-- C4: calling `start` with the key that is already active leaves the
builder (table and active key) completely unchanged — the same-key re-entry
check precedes all close/reopen logic — and concretely `g foo` twice in a row
followed by one face yields exactly one range for `foo`, not two. -/
theorem C4_same_key_noop :
    (∀ (K : Type) (inst : DecidableEq K) (b : GroupBuilder K) (c : Counts) (k : K),
      b.current = some k → GroupBuilder.start b c k = some b) ∧
    parse_obj [("g", ["foo"]), ("g", ["foo"]), ("f", ["1", "2", "3"])] =
      .ok { name := none, material_libraries := [], positions := [], tex_coords := [],
            normals := [], param_vertices := [], points := [], lines := [],
            polygons := [Polygon.P [0, 1, 2]],
            groups := [("foo", { points := [], lines := [], polygons := [⟨0, 1⟩] })],
            meshes := [("", { points := [], lines := [], polygons := [⟨0, 1⟩] })],
            smoothing_groups := [], merging_groups := [] } := by
  constructor
  · intro K inst b c k hb
    simp [GroupBuilder.start, hb]
  · rfl

/-- Witness for C4 at a concrete builder with an active key. -/
theorem C4_same_key_noop_witness :
    GroupBuilder.start (hashMapBuilder "default") (0, 0, 0) "default" =
      some (hashMapBuilder "default") :=
  C4_same_key_noop.1 String inferInstance (hashMapBuilder "default") (0, 0, 0) "default" rfl

/-- C5: `start` on a key that exists in the table but is not active reopens
the existing group via `Group::start`, which appends one brand-new open range
per element kind — never merging with or extending a previous range — and
concretely `g foo`, one face, `g bar`, `g foo`, one face yields a `foo` group
with two disjoint adjacent polygon ranges. -/
theorem C5_reopen_appends :
    (∀ (K : Type) (inst : DecidableEq K) (b : GroupBuilder K) (k : K) (g : Group)
        (c : Counts),
      b.current = none → mapLookup b.result k = some g →
      GroupBuilder.start b c k =
        some { current := some k, result := mapUpdate b.result k (g.start c) }) ∧
    (∀ (g : Group) (c : Counts),
      (g.start c).points = g.points ++ [⟨c.1, UNDEFINED⟩] ∧
      (g.start c).lines = g.lines ++ [⟨c.2.1, UNDEFINED⟩] ∧
      (g.start c).polygons = g.polygons ++ [⟨c.2.2, UNDEFINED⟩]) ∧
    parse_obj [("g", ["foo"]), ("f", ["1", "2", "3"]), ("g", ["bar"]),
        ("g", ["foo"]), ("f", ["4", "5", "6"])] =
      .ok { name := none, material_libraries := [], positions := [], tex_coords := [],
            normals := [], param_vertices := [], points := [], lines := [],
            polygons := [Polygon.P [0, 1, 2], Polygon.P [3, 4, 5]],
            groups := [("foo", { points := [], lines := [],
                                 polygons := [⟨0, 1⟩, ⟨1, 2⟩] })],
            meshes := [("", { points := [], lines := [], polygons := [⟨0, 2⟩] })],
            smoothing_groups := [], merging_groups := [] } := by
  refine ⟨?_, ?_, rfl⟩
  · intro K inst b k g c hb hg
    simp [GroupBuilder.start, builderOpen, hb, hg]
  · intro g c
    exact ⟨rfl, rfl, rfl⟩

/-- Witness for C5 at a concrete builder holding a closed `foo` group. -/
theorem C5_reopen_appends_witness :
    GroupBuilder.start ⟨none, [("foo", Group.new (0, 0, 0))]⟩ (0, 0, 1) "foo" =
      some { current := some "foo",
             result := mapUpdate [("foo", Group.new (0, 0, 0))] "foo"
               ((Group.new (0, 0, 0)).start (0, 0, 1)) } :=
  C5_reopen_appends.1 String inferInstance ⟨none, [("foo", Group.new (0, 0, 0))]⟩
    "foo" (Group.new (0, 0, 0)) (0, 0, 1) rfl rfl

/-! ### Claims C6, C7, C8, C9 -/

/-- C6: after the last statement of a successfully interpreted stream, the
driver unconditionally flushes all four builders, so any still-open scope is
closed (with the usual empty-eviction rule) and the final result is assembled
from the flushed state; `end()` on a builder with nothing active is a no-op. -/
theorem C6_end_of_stream_flush :
    (∀ (stmts : List Stmt) (st1 : PState), runStmts initState stmts = .ok st1 →
      ∃ st2, flushState st1 = some st2 ∧ parse_obj stmts = .ok (mkRawObj st2) ∧
        st2.group_builder.current = none ∧ st2.mesh_builder.current = none ∧
        st2.smoothing_builder.current = none ∧ st2.merging_builder.current = none) ∧
    (∀ (K : Type) (inst : DecidableEq K) (b : GroupBuilder K) (c : Counts),
      b.current = none → GroupBuilder.«end» b c = some b) := by
  constructor
  · intro stmts st1 h
    obtain ⟨hinv, _⟩ := runStmts_inv initState_inv h
    obtain ⟨st2, hf, _, d1, d2, d3, d4, _, _, _⟩ := flushState_ok hinv
    refine ⟨st2, hf, ?_, d1, d2, d3, d4⟩
    simp only [parse_obj, h, hf]
  · intro K inst b c hb
    simp only [GroupBuilder.«end», hb]

/-- Witness for C6 at the empty statement stream. -/
theorem C6_end_of_stream_flush_witness :
    ∃ st2, flushState initState = some st2 ∧ parse_obj [] = .ok (mkRawObj st2) ∧
      st2.group_builder.current = none ∧ st2.mesh_builder.current = none ∧
      st2.smoothing_builder.current = none ∧ st2.merging_builder.current = none :=
  C6_end_of_stream_flush.1 [] initState rfl

/-- C7: `s` and `mg` statements with the single argument `off` or `0` call
`end()` on the corresponding numeric builder; any other single argument is
parsed as a numeric identifier and forwarded to `start()` (a parse failure is
a typed error); `g` and `usemtl` with one argument always forward to their
builder's `start()`. -/
theorem C7_grouping_dispatch :
    (∀ st, step st "s" ["off"] =
      withSmoothB st (GroupBuilder.«end» st.smoothing_builder (counts st))) ∧
    (∀ st, step st "s" ["0"] =
      withSmoothB st (GroupBuilder.«end» st.smoothing_builder (counts st))) ∧
    (∀ st tok n, tok ≠ "off" → tok ≠ "0" → parseNatList tok.data = some n →
      step st "s" [tok] =
        withSmoothB st (GroupBuilder.start st.smoothing_builder (counts st) n)) ∧
    (∀ st tok, tok ≠ "off" → tok ≠ "0" → parseNatList tok.data = none →
      step st "s" [tok] = .err .ParseFailure) ∧
    (∀ st, step st "mg" ["off"] =
      withMergeB st (GroupBuilder.«end» st.merging_builder (counts st))) ∧
    (∀ st, step st "mg" ["0"] =
      withMergeB st (GroupBuilder.«end» st.merging_builder (counts st))) ∧
    (∀ st tok n, tok ≠ "off" → tok ≠ "0" → parseNatList tok.data = some n →
      step st "mg" [tok] =
        withMergeB st (GroupBuilder.start st.merging_builder (counts st) n)) ∧
    (∀ st tok, tok ≠ "off" → tok ≠ "0" → parseNatList tok.data = none →
      step st "mg" [tok] = .err .ParseFailure) ∧
    (∀ st gname, step st "g" [gname] =
      withGroupB st (GroupBuilder.start st.group_builder (counts st) gname)) ∧
    (∀ st mat, step st "usemtl" [mat] =
      withMeshB st (GroupBuilder.start st.mesh_builder (counts st) mat)) := by
  refine ⟨fun st => rfl, fun st => rfl, ?_, ?_, fun st => rfl, fun st => rfl, ?_, ?_,
    fun st gname => rfl, fun st mat => rfl⟩
  · intro st tok n hoff h0 hn
    simp only [step]
    simp [hoff, h0, Ne.symm hoff, Ne.symm h0, hn]
  · intro st tok hoff h0 hn
    simp only [step]
    simp [hoff, h0, Ne.symm hoff, Ne.symm h0, hn]
  · intro st tok n hoff h0 hn
    simp only [step]
    simp [hoff, h0, Ne.symm hoff, Ne.symm h0, hn]
  · intro st tok hoff h0 hn
    simp only [step]
    simp [hoff, h0, Ne.symm hoff, Ne.symm h0, hn]

/-- Witness for C7 at a concrete numeric `s` argument. -/
theorem C7_grouping_dispatch_witness :
    step initState "s" ["2"] =
      withSmoothB initState (GroupBuilder.start initState.smoothing_builder
        (counts initState) 2) :=
  C7_grouping_dispatch.2.2.1 initState "2" 2 (by decide) (by decide) (by decide)

/-- C8: in the final result of every successful parse (of a stream shorter
than the `UNDEFINED` sentinel), every group in all four tables has, per
element kind, ranges in nondecreasing start order, without overlap, each with
`start < end` and with no `UNDEFINED` end left behind. -/
theorem C8_final_ranges_wellformed (stmts : List Stmt) (r : RawObj)
    (hlen : stmts.length < UNDEFINED) (h : parse_obj stmts = .ok r) :
    (∀ p ∈ r.groups, GroupOk p.2) ∧ (∀ p ∈ r.meshes, GroupOk p.2) ∧
    (∀ p ∈ r.smoothing_groups, GroupOk p.2) ∧ (∀ p ∈ r.merging_groups, GroupOk p.2) := by
  obtain ⟨st2, hinv, rfl, c1, c2, c3, c4, hp, hl, hlen2⟩ := parse_obj_ok_inv h
  obtain ⟨_, _, h1, h2, h3, h4⟩ := hinv
  have hb1 : (counts st2).1 < UNDEFINED := by
    have he : (counts st2).1 = st2.points.length := rfl
    rw [he, hp]
    decide
  have hb2 : (counts st2).2.1 < UNDEFINED := by
    have he : (counts st2).2.1 = st2.lines.length := rfl
    rw [he, hl]
    decide
  have hb3 : (counts st2).2.2 < UNDEFINED := lt_of_le_of_lt hlen2 hlen
  exact ⟨final_table_ok h1 c1 hb1 hb2 hb3, final_table_ok h2 c2 hb1 hb2 hb3,
    final_table_ok h3 c3 hb1 hb2 hb3, final_table_ok h4 c4 hb1 hb2 hb3⟩

/-- Witness for C8 at the concrete stream `f 1 2 3`. -/
theorem C8_final_ranges_wellformed_witness :
    (∀ p ∈ ([("default", Group.mk [] [] [⟨0, 1⟩])] : List (String × Group)), GroupOk p.2) ∧
    (∀ p ∈ ([("", Group.mk [] [] [⟨0, 1⟩])] : List (String × Group)), GroupOk p.2) ∧
    (∀ p ∈ ([] : List (Nat × Group)), GroupOk p.2) ∧
    (∀ p ∈ ([] : List (Nat × Group)), GroupOk p.2) :=
  C8_final_ranges_wellformed [("f", ["1", "2", "3"])]
    { name := none, material_libraries := [], positions := [], tex_coords := [],
      normals := [], param_vertices := [], points := [], lines := [],
      polygons := [Polygon.P [0, 1, 2]],
      groups := [("default", Group.mk [] [] [⟨0, 1⟩])],
      meshes := [("", Group.mk [] [] [⟨0, 1⟩])],
      smoothing_groups := [], merging_groups := [] }
    (by decide) rfl

/-- C9: the `p` and `l` statements are never interpreted into the result, so
every successful parse yields empty point and line lists, and every group in
all four tables has empty point and line range sequences (the point and line
ranges the builders open always close at zero length and are pruned). -/
theorem C9_points_lines_unpopulated (stmts : List Stmt) (r : RawObj)
    (h : parse_obj stmts = .ok r) :
    r.points = [] ∧ r.lines = [] ∧
    (∀ p ∈ r.groups, p.2.points = [] ∧ p.2.lines = []) ∧
    (∀ p ∈ r.meshes, p.2.points = [] ∧ p.2.lines = []) ∧
    (∀ p ∈ r.smoothing_groups, p.2.points = [] ∧ p.2.lines = []) ∧
    (∀ p ∈ r.merging_groups, p.2.points = [] ∧ p.2.lines = []) := by
  obtain ⟨st2, hinv, rfl, c1, c2, c3, c4, hp, hl, _⟩ := parse_obj_ok_inv h
  obtain ⟨_, _, h1, h2, h3, h4⟩ := hinv
  have hc : counts st2 = (0, 0, st2.polygons.length) := by
    simp [counts, hp, hl]
  rw [hc] at h1 h2 h3 h4
  exact ⟨hp, hl, final_table_pl_empty h1 c1, final_table_pl_empty h2 c2,
    final_table_pl_empty h3 c3, final_table_pl_empty h4 c4⟩

/-- Witness for C9 at the concrete stream `s 1`, two faces, `s off`. -/
theorem C9_points_lines_unpopulated_witness :
    ([] : List Nat) = [] ∧ ([] : List Line) = [] ∧
    (∀ p ∈ ([("default", Group.mk [] [] [⟨0, 2⟩])] : List (String × Group)),
      p.2.points = [] ∧ p.2.lines = []) ∧
    (∀ p ∈ ([("", Group.mk [] [] [⟨0, 2⟩])] : List (String × Group)),
      p.2.points = [] ∧ p.2.lines = []) ∧
    (∀ p ∈ ([(1, Group.mk [] [] [⟨0, 2⟩])] : List (Nat × Group)),
      p.2.points = [] ∧ p.2.lines = []) ∧
    (∀ p ∈ ([] : List (Nat × Group)), p.2.points = [] ∧ p.2.lines = []) :=
  C9_points_lines_unpopulated
    [("s", ["1"]), ("f", ["1", "2", "3"]), ("f", ["2", "3", "4"]), ("s", ["off"])]
    { name := none, material_libraries := [], positions := [], tex_coords := [],
      normals := [], param_vertices := [], points := [], lines := [],
      polygons := [Polygon.P [0, 1, 2], Polygon.P [1, 2, 3]],
      groups := [("default", Group.mk [] [] [⟨0, 2⟩])],
      meshes := [("", Group.mk [] [] [⟨0, 2⟩])],
      smoothing_groups := [(1, Group.mk [] [] [⟨0, 2⟩])],
      merging_groups := [] }
    rfl

end ObjRaw
